import Mathlib

/-!
Verification development for the cargo-buckal rule translator.

The source program is embedded shallowly:

* Rust `&str` values become `List Char` (`Str`), so that the byte-level
  scanning done by `rewrite_target_with_cell` (`src/utils.rs`) is modelled
  by structural recursion;
* filesystem paths become lists of components (`List Str`), matching the
  component-wise semantics of `Path::starts_with` / `Path::strip_prefix`
  used by `find_cell_for_path` (`src/bundles.rs`);
* the `HashMap`s read from `.buckconfig` become association lists whose
  list order stands for the (unspecified, per-instance) iteration order of
  the Rust `HashMap`; lookups (`HashMap::get`) never depend on that order,
  but `find_cell_for_path` folds over the map and therefore takes the
  iteration order as an explicit parameter;
* fatal paths (`std::process::exit(1)`, `panic!`, `expect`) become
  `Except Str` errors.
-/

namespace Buckal

/-- Rust `&str`, embedded as its list of characters. -/
abbrev Str := List Char

/-- Association-list lookup, modelling `HashMap::get` (keys are unique in the
maps the program builds, so first-match lookup agrees with the hash map). -/
def alookup {α : Type} : List (Str × α) → Str → Option α
  | [], _ => none
  | (k, v) :: rest, key => if k = key then some v else alookup rest key

/-- Model of `str::find(pat)` plus slicing: returns the part strictly before
the first occurrence of `pat` and the part strictly after it. -/
def splitFirstOn (pat : Str) : Str → Option (Str × Str)
  | [] => if pat = [] then some ([], []) else none
  | c :: rest =>
    if pat.isPrefixOf (c :: rest) then some ([], (c :: rest).drop pat.length)
    else (splitFirstOn pat rest).map (fun p => (c :: p.1, p.2))

/-- The `"//"` separator of a Buck target label. -/
def sepSS : Str := ['/', '/']

/-- The `":"` separator in front of a rule name. -/
def colonP : Str := [':']

/-- Splits a path string at `'/'` into segments (possibly empty ones). -/
def splitSeg : Str → List Str
  | [] => [[]]
  | c :: rest =>
    if c = '/' then [] :: splitSeg rest
    else
      match splitSeg rest with
      | [] => [[c]]
      | seg :: segs => (c :: seg) :: segs

/-- Nonempty `'/'`-separated segments of a path string. -/
def segsOf (s : Str) : List Str := (splitSeg s).filter (fun seg => seg ≠ [])

/-- Model of `Path::new(s).components()` for a relative path string: `"."`
segments are normalized away except at the beginning of the path. -/
def pathComponents (s : Str) : List Str :=
  match segsOf s with
  | [] => []
  | p :: rest => p :: rest.filter (fun seg => seg ≠ ['.'])

/-- Components contributed by `root.join(s)` for a nonempty absolute `root`:
every `"."` segment of `s` is then non-leading in the joined path, so
`Path::components` drops all of them. -/
def joinSegs (s : Str) : List Str := (segsOf s).filter (fun seg => seg ≠ ['.'])

/-- Model of `Path::strip_prefix` on component lists. -/
def stripPrefixPath (pre p : List Str) : Option (List Str) :=
  if pre.isPrefixOf p then some (p.drop pre.length) else none

/-- One step of the best-match fold in `find_cell_for_path`
(src/bundles.rs lines 181-200): keep the candidate with strictly more
path components, the earlier-iterated one on ties. -/
def bestStep (relativePath : List Str) (best : Option (Str × Nat)) (cm : Str × Str)
    : Option (Str × Nat) :=
  let comps := pathComponents cm.2
  if comps.isPrefixOf relativePath then
    match best with
    | some best' =>
      if comps.length > best'.2 then some (cm.1, comps.length) else some best'
    | none => some (cm.1, comps.length)
  else best

/-- Embedding of `BuckConfig::find_cell_for_path` (src/bundles.rs).
`cellMappings` is the `cell_mappings` hash map (declared cells plus
alias entries resolved to the aliased cell's path) in iteration order;
`path` and `buck2_root` are component lists. -/
def find_cell_for_path (cellMappings : List (Str × Str)) (path buck2_root : List Str)
    : Option Str :=
  match stripPrefixPath buck2_root path with
  | none => none
  | some relativePath =>
    (cellMappings.foldl (bestStep relativePath) none).map Prod.fst

/-- Does the string start with `'@'`? (`result.starts_with('@')`). -/
def startsWithAt : Str → Bool
  | [] => false
  | c :: _ => c == '@'

/-- Embedding of the `is_in_root` computation of `rewrite_target_with_cell`
(src/utils.rs lines 527-533): the declaring file is "at the project root"
iff its root-relative form has exactly one component (its parent is empty). -/
def isInRoot (buck2_root current_file_path : List Str) : Bool :=
  match stripPrefixPath buck2_root current_file_path with
  | some rel => rel.length == 1
  | none => false

/-- The `'@'`-prefixing applied to every rewritten label
(`if !is_in_root && !result.starts_with('@') { format!("@{}", result) }`). -/
def addAtMark (in_root : Bool) (result : Str) : Str :=
  if !in_root && !startsWithAt result then '@' :: result else result

/-- The final fall-through of `rewrite_target_with_cell`
(src/utils.rs lines 666-675): return the target unchanged, except that a
cell-prefixed label gains `'@'` when the file is not at the root. -/
def finalFallback (in_root : Bool) (target : Str) : Str :=
  if !in_root && !startsWithAt target && (splitFirstOn sepSS target).isSome
      && !(sepSS.isPrefixOf target) then
    '@' :: target
  else target

/-- Stripping of a declared cell path from the path part of a label
(src/utils.rs lines 563-573 and 619-629); note this is a *string* prefix
test, unlike the component-wise test in `find_cell_for_path`. -/
def stripCellPathPart (cell_path path_part : Str) : Str :=
  if !cell_path.isEmpty && cell_path.isPrefixOf path_part then
    let remaining := path_part.drop cell_path.length
    match remaining with
    | '/' :: r => r
    | _ => remaining
  else path_part

/-- Rebuilding of the part after `"//"` from a possibly emptied path part and
the retained rule name (src/utils.rs lines 576-580 and 632-636). -/
def newAfterSep (new_path_part name_part : Str) : Str :=
  if new_path_part = [] then ':' :: name_part else new_path_part ++ ':' :: name_part

/-- Embedding of `rewrite_target_with_cell` (src/utils.rs lines 507-676).

`cell_aliases` is the map passed by `load_cell_aliases` (cell names mapped
to themselves plus aliases mapped to canonical cell names); `cells` is
`buckconfig.parse_cells()`; `cellMappings` is the mapping iterated by
`find_cell_for_path`, in hash-map iteration order; `buck2_root` and
`current_file_path` are paths as component lists.  The `full_path`
construction unifies the `path_part.is_empty()` special case of the source
with the general `buck2_root.join(path_part)` case, since joining the empty
relative path contributes no components. -/
def rewrite_target_with_cell (target : Str) (cell_aliases : List (Str × Str))
    (buck2_root : List Str) (cells : List (Str × Str)) (cellMappings : List (Str × Str))
    (current_file_path : List Str) : Str :=
  if target = [] then target
  else
    let in_root := isInRoot buck2_root current_file_path
    match splitFirstOn sepSS target with
    | none => finalFallback in_root target
    | some (before_sep, after_sep) =>
      if before_sep = [] then
        -- format: //path/to/target:name
        match splitFirstOn colonP after_sep with
        | none => finalFallback in_root target
        | some (path_part, name_part) =>
          let full_path := buck2_root ++ joinSegs path_part
          match find_cell_for_path cellMappings full_path buck2_root with
          | none => finalFallback in_root target
          | some cell_name =>
            match alookup cells cell_name with
            | some cell_path =>
              let new_path_part := stripCellPathPart cell_path path_part
              addAtMark in_root (cell_name ++ sepSS ++ newAfterSep new_path_part name_part)
            | none => addAtMark in_root (cell_name ++ sepSS ++ after_sep)
      else
        -- format: cell//path/to/target:name
        let cell_name := before_sep
        let canonical := (alookup cell_aliases cell_name).getD cell_name
        match alookup cells canonical with
        | some cell_path =>
          match splitFirstOn colonP after_sep with
          | none => finalFallback in_root target
          | some (path_part, name_part) =>
            let new_path_part := stripCellPathPart cell_path path_part
            if canonical ≠ cell_name ∨ new_path_part ≠ path_part then
              addAtMark in_root (canonical ++ sepSS ++ newAfterSep new_path_part name_part)
            else finalFallback in_root target
        | none =>
          match alookup cell_aliases cell_name with
          | some canonical2 =>
            if canonical2 ≠ cell_name then addAtMark in_root (canonical2 ++ sepSS ++ after_sep)
            else finalFallback in_root target
          | none => finalFallback in_root target

/-! ## Data model of the resolved cargo graph (cargo_metadata input types) -/

/-- `cargo_metadata::DependencyKind`. -/
inductive DependencyKind
  | Normal
  | Development
  | Build
  | Unknown
deriving DecidableEq

/-- The compilation-unit kinds `set_deps` is invoked with (crate::buck::CargoTargetKind). -/
inductive CargoTargetKind
  | Lib
  | Bin
  | Test
  | CustomBuild
deriving DecidableEq

/-- `cargo_metadata::TargetKind` (the variants the program inspects). -/
inductive TargetKind
  | Lib
  | CDyLib
  | DyLib
  | RLib
  | StaticLib
  | ProcMacro
  | Bin
  | Test
  | CustomBuild
  | Bench
  | Example
deriving DecidableEq

/-- One `(kind, optional platform predicate)` pair of a dependency edge
(`cargo_metadata::DepKindInfo`); the platform predicate type `π` is abstract,
its evaluation against the probed target triple and cfgs is a function. -/
structure DepKindInfo (π : Type) where
  kind : DependencyKind
  target : Option π

/-- A compilation unit (`cargo_metadata::Target`): name, kinds, source-root
path (absolute, as components), and whether it has inline tests. -/
structure CTarget where
  name : Str
  kind : List TargetKind
  src_path : List Str
  test : Bool
deriving DecidableEq

/-- A package (`cargo_metadata::Package`): `source = none` marks a
first-party (workspace) package. `manifest_path` is absolute, as components. -/
structure CPackage where
  name : Str
  version : Str
  manifest_path : List Str
  targets : List CTarget
  source : Option Str
  edition : Str
  links : Option Str
deriving DecidableEq

/-- One outgoing dependency edge of a node (`cargo_metadata::NodeDep`). -/
structure NodeDep (π : Type) where
  pkg : Str
  name : Str
  dep_kinds : List (DepKindInfo π)

/-- A resolved-graph node (`cargo_metadata::Node`). -/
structure CNode (π : Type) where
  id : Str
  deps : List (NodeDep π)
  features : List Str

/-- Run context: the fields of `BuckalContext` and the probed environment
that `buckify.rs` reads.  `rewriteFn` stands for `rewrite_target_if_needed`
together with its warn-and-fall-back error handling (a total function on
labels); `matchesP` evaluates a platform predicate against the probed target
triple and cfgs; `platformLookup` is `lookup_platforms`. -/
structure Ctx (π : Type) where
  rewriteFn : Str → Str
  matchesP : π → Bool
  packages_map : List (Str × CPackage)
  checksums_map : List (Str × Str)
  buck2_root : List Str
  inherit_workspace_deps : Bool
  root_id : Str
  ignore_tests : Bool
  platformLookup : Str → Option (List Str)

/-! ## Generated rule model (crate::buck rule structs, the fields set here) -/

/-- `http_archive` rule. -/
structure HttpArchive where
  name : Str
  urls : List Str
  sha256 : Str
  typ : Str
  stripPrefixField : Str
  out : Option Str
deriving DecidableEq

/-- `cargo_manifest` rule. -/
structure CargoManifest where
  name : Str
  vendor : Str
deriving DecidableEq

/-- `filegroup` rule. -/
structure FileGroup where
  name : Str
  srcs_include : List Str
  out : Option Str
deriving DecidableEq

/-- `rust_library` rule. -/
structure RustLibrary where
  name : Str
  srcs : List Str
  crate_name : Str
  edition : Str
  features : List Str
  rustc_flags : List Str
  visibility : List Str
  proc_macro : Option Bool
  crate_root : Str
  compatible_with : List Str
  deps : List Str
  named_deps : List (Str × Str)
  env : List (Str × Str)
deriving DecidableEq

/-- `rust_binary` rule. -/
structure RustBinary where
  name : Str
  srcs : List Str
  crate_name : Str
  edition : Str
  features : List Str
  rustc_flags : List Str
  visibility : List Str
  crate_root : Str
  deps : List Str
  named_deps : List (Str × Str)
  env : List (Str × Str)
deriving DecidableEq

/-- `rust_test` rule. -/
structure RustTest where
  name : Str
  srcs : List Str
  crate_name : Str
  edition : Str
  features : List Str
  rustc_flags : List Str
  visibility : List Str
  crate_root : Str
  deps : List Str
  named_deps : List (Str × Str)
  env : List (Str × Str)
deriving DecidableEq

/-- `buildscript_run` rule. -/
structure BuildscriptRun where
  name : Str
  package_name : Str
  buildscript_rule : Str
  env_srcs : List Str
  features : List Str
  version : Str
  manifest_dir : Str
  visibility : List Str
deriving DecidableEq

/-- The closed sum of emitted rules (crate::buck::Rule variants used here). -/
inductive Rule
  | HttpArchive (r : HttpArchive)
  | CargoManifest (r : CargoManifest)
  | FileGroup (r : FileGroup)
  | RustLibrary (r : RustLibrary)
  | RustBinary (r : RustBinary)
  | RustTest (r : RustTest)
  | BuildscriptRun (r : BuildscriptRun)
deriving DecidableEq

/-- `BTreeSet::insert`: sets have unique-key, order-irrelevant semantics;
we model them as duplicate-free lists in insertion order. -/
def insertSet (s : List Str) (x : Str) : List Str := if x ∈ s then s else s ++ [x]

/-- `BTreeMap::insert`: replace the value at the key, or append the binding. -/
def upsert : List (Str × Str) → Str → Str → List (Str × Str)
  | [], k, v => [(k, v)]
  | (k', v') :: rest, k, v =>
    if k' = k then (k', v) :: rest else (k', v') :: upsert rest k v

/-- `String::replace("-", "_")`. -/
def normalized (s : Str) : Str := s.map (fun c => if c = '-' then '_' else c)

/-- Components of a relative path rendered back to a string
(`Path::to_string_lossy` on a path built from components). -/
def joinPath : List Str → Str
  | [] => []
  | [x] => x
  | x :: xs => x ++ '/' :: joinPath xs

/-- `get_build_name` (src/buckify.rs lines 774-780): strip a `"-build"` suffix. -/
def get_build_name (s : Str) : Str :=
  if "-build".data.isSuffixOf s then s.take (s.length - 6) else s

/-- `get_vendor_target` (src/buckify.rs line 782): `":{name}-vendor"`. -/
def get_vendor_target (package : CPackage) : Str := ':' :: package.name ++ "-vendor".data

/-- The `"@$(location :{name}-manifest[env_flags])"` rustc flag shared by all
emitted compile rules. -/
def manifest_flags (package : CPackage) : Str :=
  "@$(location :".data ++ package.name ++ "-manifest[env_flags])".data

/-- The library-family test of src/buckify.rs (lines 42-49 and 324-332). -/
def is_lib_family (t : CTarget) : Bool :=
  t.kind.contains TargetKind.Lib || t.kind.contains TargetKind.CDyLib
    || t.kind.contains TargetKind.DyLib || t.kind.contains TargetKind.RLib
    || t.kind.contains TargetKind.StaticLib || t.kind.contains TargetKind.ProcMacro

/-- `get_lib_targets` (src/buckify.rs lines 321-334). -/
def get_lib_targets (package : CPackage) : List CTarget :=
  package.targets.filter is_lib_family

/-! ## Dependency classifier (src/buckify.rs) -/

/-- `check_dep_target` (src/buckify.rs lines 309-319): an absent platform
predicate always matches; a present one is evaluated against the probed
target and cfgs. -/
def check_dep_target {π : Type} (matchesP : π → Bool) (dk : DepKindInfo π) : Bool :=
  match dk.target with
  | none => true
  | some platform => matchesP platform

/-- The edge-selection condition of `set_deps` (src/buckify.rs lines 346-351):
some `(kind, platform)` pair of the edge passes both the unit-kind rule and
the platform check. -/
def dep_edge_selected {π : Type} (matchesP : π → Bool) (kind : CargoTargetKind)
    (dep_kinds : List (DepKindInfo π)) : Bool :=
  dep_kinds.any (fun dk =>
    ((!(kind == CargoTargetKind.CustomBuild) && dk.kind == DependencyKind.Normal)
      || (kind == CargoTargetKind.CustomBuild && dk.kind == DependencyKind.Build)
      || (kind == CargoTargetKind.Test && dk.kind == DependencyKind.Development))
    && check_dep_target matchesP dk)

/-- Processing of one dependency edge by `set_deps` (src/buckify.rs
lines 343-450), threading the rule's `(deps, named_deps)` pair; fatal
`process::exit` paths become errors. -/
def set_deps_step {π : Type} (ctx : Ctx π) (node_id : Str) (kind : CargoTargetKind)
    (acc : List Str × List (Str × Str)) (dep : NodeDep π)
    : Except Str (List Str × List (Str × Str)) :=
  match alookup ctx.packages_map dep.pkg with
  | none => .ok acc
  | some dep_package =>
    if dep_edge_selected ctx.matchesP kind dep.dep_kinds then
      match dep_package.source with
      | none =>
        -- first-party dependency
        let manifest_dir := dep_package.manifest_path.dropLast
        match stripPrefixPath ctx.buck2_root manifest_dir with
        | none => .error "Current directory is not inside the Buck2 project root".data
        | some rel =>
          let relative_path := joinPath rel
          let dep_bin_targets := dep_package.targets.filter
            (fun t => t.kind.contains TargetKind.Bin)
          let dep_lib_targets := get_lib_targets dep_package
          match dep_lib_targets with
          | [libt] =>
            let buckal_name :=
              if dep_bin_targets.any (fun b => b.name == libt.name)
              then "lib".data ++ libt.name else libt.name
            let target_label := relative_path ++ ':' :: buckal_name
            let rewritten := ctx.rewriteFn target_label
            if dep.name ≠ normalized dep_package.name then
              .ok (acc.1, upsert acc.2 dep.name rewritten)
            else
              .ok (insertSet acc.1 rewritten, acc.2)
          | ls =>
            .error ("Expected exactly one library target for dependency ".data
              ++ dep_package.name ++ ", but found ".data ++ (toString ls.length).data)
      | some _ =>
        -- third-party dependency
        let use_alias := ctx.inherit_workspace_deps && node_id == ctx.root_id
        let dep_target :=
          if use_alias then "//third-party/rust:".data ++ dep_package.name
          else "//third-party/rust/crates/".data ++ dep_package.name
            ++ '/' :: dep_package.version ++ ':' :: dep_package.name
        let rewritten := ctx.rewriteFn dep_target
        if dep.name ≠ normalized dep_package.name then
          .ok (acc.1, upsert acc.2 dep.name rewritten)
        else
          .ok (insertSet acc.1 rewritten, acc.2)
    else .ok acc

/-- `set_deps` (src/buckify.rs lines 336-452): fold the per-edge step over
the node's edges, starting from the rule's current `(deps, named_deps)`. -/
def set_deps {π : Type} (ctx : Ctx π) (node : CNode π) (kind : CargoTargetKind)
    (acc0 : List Str × List (Str × Str)) : Except Str (List Str × List (Str × Str)) :=
  node.deps.foldlM (set_deps_step ctx node.id kind) acc0

/-! ## Rule emission (src/buckify.rs) -/

/-- `emit_http_archive` (src/buckify.rs lines 730-751); the `unwrap` on a
missing checksum becomes an error. -/
def emit_http_archive {π : Type} (ctx : Ctx π) (package : CPackage)
    : Except Str HttpArchive :=
  let vendor_name := package.name ++ "-vendor".data
  let url := "https://static.crates.io/crates/".data ++ package.name
    ++ '/' :: package.name ++ "-".data ++ package.version ++ ".crate".data
  let buckal_name := package.name ++ "-".data ++ package.version
  match alookup ctx.checksums_map (package.name ++ "-".data ++ package.version) with
  | none => .error "missing checksum".data
  | some checksum =>
    .ok { name := vendor_name
          urls := [url]
          sha256 := checksum
          typ := "tar.gz".data
          stripPrefixField := buckal_name
          out := some "vendor".data }

/-- `emit_filegroup` (src/buckify.rs lines 753-764). -/
def emit_filegroup (package : CPackage) : FileGroup :=
  { name := package.name ++ "-vendor".data
    srcs_include := ["**/**".data]
    out := some "vendor".data }

/-- `emit_cargo_manifest` (src/buckify.rs lines 766-772). -/
def emit_cargo_manifest (package : CPackage) : CargoManifest :=
  { name := package.name ++ "-manifest".data
    vendor := get_vendor_target package }

/-- `emit_rust_library` (src/buckify.rs lines 454-509); the `expect` on a
source path outside the manifest directory becomes an error. -/
def emit_rust_library {π : Type} (ctx : Ctx π) (package : CPackage) (node : CNode π)
    (lib_target : CTarget) (manifest_dir : List Str) (buckal_name : Str)
    : Except Str RustLibrary :=
  match stripPrefixPath manifest_dir lib_target.src_path with
  | none => .error "Failed to get library source path".data
  | some rel =>
    match set_deps ctx node CargoTargetKind.Lib ([], []) with
    | .error e => .error e
    | .ok dn =>
      .ok { name := buckal_name
            srcs := [get_vendor_target package]
            crate_name := normalized lib_target.name
            edition := package.edition
            features := node.features
            rustc_flags := [manifest_flags package]
            visibility := ["PUBLIC".data]
            proc_macro :=
              if lib_target.kind.contains TargetKind.ProcMacro then some true else none
            crate_root := "vendor/".data ++ joinPath rel
            compatible_with := (ctx.platformLookup package.name).getD []
            deps := dn.1
            named_deps := dn.2
            env := [] }

/-- `emit_rust_binary` (src/buckify.rs lines 511-554). -/
def emit_rust_binary {π : Type} (ctx : Ctx π) (package : CPackage) (node : CNode π)
    (bin_target : CTarget) (manifest_dir : List Str) (buckal_name : Str)
    : Except Str RustBinary :=
  match stripPrefixPath manifest_dir bin_target.src_path with
  | none => .error "Failed to get binary source path".data
  | some rel =>
    match set_deps ctx node CargoTargetKind.Bin ([], []) with
    | .error e => .error e
    | .ok dn =>
      .ok { name := buckal_name
            srcs := [get_vendor_target package]
            crate_name := normalized bin_target.name
            edition := package.edition
            features := node.features
            rustc_flags := [manifest_flags package]
            visibility := ["PUBLIC".data]
            crate_root := "vendor/".data ++ joinPath rel
            deps := dn.1
            named_deps := dn.2
            env := [] }

/-- `emit_rust_test` (src/buckify.rs lines 556-599). -/
def emit_rust_test {π : Type} (ctx : Ctx π) (package : CPackage) (node : CNode π)
    (test_target : CTarget) (manifest_dir : List Str) (buckal_name : Str)
    : Except Str RustTest :=
  match stripPrefixPath manifest_dir test_target.src_path with
  | none => .error "Failed to get binary source path".data
  | some rel =>
    match set_deps ctx node CargoTargetKind.Test ([], []) with
    | .error e => .error e
    | .ok dn =>
      .ok { name := buckal_name
            srcs := [get_vendor_target package]
            crate_name := normalized test_target.name
            edition := package.edition
            features := node.features
            rustc_flags := [manifest_flags package]
            visibility := ["PUBLIC".data]
            crate_root := "vendor/".data ++ joinPath rel
            deps := dn.1
            named_deps := dn.2
            env := [] }

/-- `emit_buildscript_build` (src/buckify.rs lines 601-644); no visibility is
set (struct default). -/
def emit_buildscript_build {π : Type} (ctx : Ctx π) (build_target : CTarget)
    (package : CPackage) (node : CNode π) (manifest_dir : List Str)
    : Except Str RustBinary :=
  match stripPrefixPath manifest_dir build_target.src_path with
  | none => .error "Failed to get library source path".data
  | some rel =>
    match set_deps ctx node CargoTargetKind.CustomBuild ([], []) with
    | .error e => .error e
    | .ok dn =>
      .ok { name := package.name ++ "-".data ++ build_target.name
            srcs := [get_vendor_target package]
            crate_name := normalized build_target.name
            edition := package.edition
            features := node.features
            rustc_flags := [manifest_flags package]
            visibility := []
            crate_root := "vendor/".data ++ joinPath rel
            deps := dn.1
            named_deps := dn.2
            env := [] }

/-- One step of the `links`-propagation loop of `emit_buildscript_run`
(src/buckify.rs lines 668-709); the `panic!` becomes an error. -/
def buildscript_run_dep {π : Type} (ctx : Ctx π) (env_srcs : List Str) (dep : NodeDep π)
    : Except Str (List Str) :=
  match alookup ctx.packages_map dep.pkg with
  | none => .ok env_srcs
  | some dep_package =>
    if dep_package.links.isSome && dep.dep_kinds.any (fun dk =>
        dk.kind == DependencyKind.Normal && check_dep_target ctx.matchesP dk) then
      match dep_package.targets.find? (fun t => t.kind.contains TargetKind.CustomBuild) with
      | some build_target_dep =>
        let build_name_dep := get_build_name build_target_dep.name
        let target_label := "//third-party/rust/crates/".data ++ dep_package.name
          ++ '/' :: dep_package.version ++ ':' :: dep_package.name
          ++ "-".data ++ build_name_dep ++ "-run[metadata]".data
        .ok (insertSet env_srcs (ctx.rewriteFn target_label))
      | none =>
        .error ("Dependency ".data ++ dep_package.name
          ++ " has links key but no build script target".data)
    else .ok env_srcs

/-- `emit_buildscript_run` (src/buckify.rs lines 646-712). -/
def emit_buildscript_run {π : Type} (ctx : Ctx π) (package : CPackage) (node : CNode π)
    (build_target : CTarget) : Except Str BuildscriptRun :=
  let build_name := get_build_name build_target.name
  match node.deps.foldlM (buildscript_run_dep ctx)
      [':' :: package.name ++ "-manifest[env_dict]".data] with
  | .error e => .error e
  | .ok env_srcs =>
    .ok { name := package.name ++ "-".data ++ build_name ++ "-run".data
          package_name := package.name
          buildscript_rule := ':' :: package.name ++ "-".data ++ build_target.name
          env_srcs := env_srcs
          features := node.features
          version := package.version
          manifest_dir := ':' :: package.name ++ "-vendor".data
          visibility := ["PUBLIC".data] }

/-- The `OUT_DIR` value written by `patch_with_buildscript`
(src/buckify.rs lines 714-728). -/
def buildscript_env_value (package : CPackage) (build_name : Str) : Str :=
  "$(location :".data ++ package.name ++ "-".data ++ build_name ++ "-run[out_dir])".data

/-- The extra rustc flag written by `patch_with_buildscript`. -/
def buildscript_flag_value (package : CPackage) (build_name : Str) : Str :=
  "@$(location :".data ++ package.name ++ "-".data ++ build_name ++ "-run[rustc_flags])".data

/-- `patch_with_buildscript` applied through `as_rust_rule_mut`: rust rules
gain an `OUT_DIR` env entry and a rustc flag; other rules are unchanged. -/
def patchRule (build_target : CTarget) (package : CPackage) : Rule → Rule
  | .RustLibrary r =>
    .RustLibrary { r with
      env := upsert r.env "OUT_DIR".data
        (buildscript_env_value package (get_build_name build_target.name))
      rustc_flags := insertSet r.rustc_flags
        (buildscript_flag_value package (get_build_name build_target.name)) }
  | .RustBinary r =>
    .RustBinary { r with
      env := upsert r.env "OUT_DIR".data
        (buildscript_env_value package (get_build_name build_target.name))
      rustc_flags := insertSet r.rustc_flags
        (buildscript_flag_value package (get_build_name build_target.name)) }
  | .RustTest r =>
    .RustTest { r with
      env := upsert r.env "OUT_DIR".data
        (buildscript_env_value package (get_build_name build_target.name))
      rustc_flags := insertSet r.rustc_flags
        (buildscript_flag_value package (get_build_name build_target.name)) }
  | r => r

/-! ## Per-package translation (src/buckify.rs) -/

/-- `buckify_dep_node` (src/buckify.rs lines 32-102): vendor-fetch rule,
manifest rule, one library rule, plus build-script rules when present. -/
def buckify_dep_node {π : Type} (ctx : Ctx π) (node : CNode π) : Except Str (List Rule) :=
  match alookup ctx.packages_map node.id with
  | none => .error "package not found".data
  | some package =>
    let manifest_dir := package.manifest_path.dropLast
    match package.targets.find? is_lib_family with
    | none => .error "No library target found".data
    | some lib_target =>
      match emit_http_archive ctx package with
      | .error e => .error e
      | .ok http_archive =>
        let cargo_manifest := emit_cargo_manifest package
        match emit_rust_library ctx package node lib_target manifest_dir package.name with
        | .error e => .error e
        | .ok rust_library =>
          let rules := [Rule.HttpArchive http_archive, Rule.CargoManifest cargo_manifest,
            Rule.RustLibrary rust_library]
          match package.targets.find? (fun t => t.kind.contains TargetKind.CustomBuild) with
          | none => .ok rules
          | some build_target =>
            match emit_buildscript_build ctx build_target package node manifest_dir with
            | .error e => .error e
            | .ok bb =>
              match emit_buildscript_run ctx package node build_target with
              | .error e => .error e
              | .ok br =>
                .ok (rules.map (patchRule build_target package)
                  ++ [Rule.RustBinary bb, Rule.BuildscriptRun br])

/-- The binary-target loop body of `buckify_root_node` (src/buckify.rs
lines 133-153), including the implicit dependency on the package's own
library when a library target shares the binary's name. -/
def root_bin_rule {π : Type} (ctx : Ctx π) (package : CPackage) (node : CNode π)
    (manifest_dir : List Str) (lib_targets : List CTarget) (bin_target : CTarget)
    : Except Str Rule :=
  match emit_rust_binary ctx package node bin_target manifest_dir bin_target.name with
  | .error e => .error e
  | .ok rb =>
    let rb :=
      if lib_targets.any (fun l => l.name == bin_target.name) then
        { rb with deps := insertSet rb.deps (':' :: "lib".data ++ bin_target.name) }
      else rb
    .ok (Rule.RustBinary rb)

/-- The library-target loop body of `buckify_root_node` (src/buckify.rs
lines 156-192): the library rule is renamed `lib{name}` when a binary target
shares its name, and an inline-test rule `{name}-unittest` follows it. -/
def root_lib_rules {π : Type} (ctx : Ctx π) (package : CPackage) (node : CNode π)
    (manifest_dir : List Str) (bin_targets : List CTarget) (lib_target : CTarget)
    : Except Str (List Rule) :=
  let buckal_name :=
    if bin_targets.any (fun b => b.name == lib_target.name)
    then "lib".data ++ lib_target.name else lib_target.name
  match emit_rust_library ctx package node lib_target manifest_dir buckal_name with
  | .error e => .error e
  | .ok rl =>
    if !ctx.ignore_tests && lib_target.test then
      match emit_rust_test ctx package node lib_target manifest_dir
          (lib_target.name ++ "-unittest".data) with
      | .error e => .error e
      | .ok rt => .ok [Rule.RustLibrary rl, Rule.RustTest rt]
    else .ok [Rule.RustLibrary rl]

/-- The integration-test loop body of `buckify_root_node` (src/buckify.rs
lines 195-228). -/
def root_test_rule {π : Type} (ctx : Ctx π) (package : CPackage) (node : CNode π)
    (manifest_dir : List Str) (bin_targets lib_targets : List CTarget)
    (test_target : CTarget) : Except Str Rule :=
  match emit_rust_test ctx package node test_target manifest_dir test_target.name with
  | .error e => .error e
  | .ok rt =>
    let package_name := normalized package.name
    let lib_alias := bin_targets.any (fun b => b.name == package_name)
    let envKey := "CARGO_BIN_EXE_".data ++ package_name
    let envVal := "$(location :".data ++ package_name ++ ")".data
    let rt :=
      if lib_alias then { rt with env := upsert rt.env envKey envVal } else rt
    let rt :=
      if lib_targets.any (fun l => l.name == package_name) then
        if lib_alias then
          { rt with deps := insertSet rt.deps (':' :: "lib".data ++ package_name) }
        else
          { rt with deps := insertSet rt.deps (':' :: package_name) }
      else rt
    .ok (Rule.RustTest rt)

/-- `buckify_root_node` (src/buckify.rs lines 104-262). -/
def buckify_root_node {π : Type} (ctx : Ctx π) (node : CNode π) : Except Str (List Rule) :=
  match alookup ctx.packages_map node.id with
  | none => .error "package not found".data
  | some package =>
    let bin_targets := package.targets.filter (fun t => t.kind.contains TargetKind.Bin)
    let lib_targets := get_lib_targets package
    let test_targets := package.targets.filter (fun t => t.kind.contains TargetKind.Test)
    let manifest_dir := package.manifest_path.dropLast
    match bin_targets.mapM (root_bin_rule ctx package node manifest_dir lib_targets) with
    | .error e => .error e
    | .ok binRules =>
      match lib_targets.mapM (root_lib_rules ctx package node manifest_dir bin_targets) with
      | .error e => .error e
      | .ok libRules =>
        match (if ctx.ignore_tests then .ok []
            else test_targets.mapM
              (root_test_rule ctx package node manifest_dir bin_targets lib_targets) :
            Except Str (List Rule)) with
        | .error e => .error e
        | .ok testRules =>
          let rules := Rule.FileGroup (emit_filegroup package)
            :: Rule.CargoManifest (emit_cargo_manifest package)
            :: (binRules ++ libRules.flatten ++ testRules)
          match package.targets.find? (fun t => t.kind.contains TargetKind.CustomBuild) with
          | none => .ok rules
          | some build_target =>
            match emit_buildscript_build ctx build_target package node manifest_dir with
            | .error e => .error e
            | .ok bb =>
              match emit_buildscript_run ctx package node build_target with
              | .error e => .error e
              | .ok br =>
                .ok (rules.map (patchRule build_target package)
                  ++ [Rule.RustBinary bb, Rule.BuildscriptRun br])

/-! ## Change applier, `Removed` arm (src/buckify.rs lines 855-879) -/

/-- The filesystem as the set of existing paths (component lists); a state,
threaded explicitly. -/
abbrev FS := List (List Str)

/-- `std::fs::remove_dir_all`: drop the path and everything below it. -/
def removeDirAll (p : List Str) (fs : FS) : FS :=
  fs.filter (fun q => !(p.isPrefixOf q))

/-- `Path::exists`. -/
def dirExists (p : List Str) (fs : FS) : Bool := fs.contains p

/-- `read_dir(p).next().is_some()`: something exists strictly below `p`. -/
def dirHasEntries (p : List Str) (fs : FS) : Bool :=
  fs.any (fun q => p.isPrefixOf q && q != p)

/-- The constant `RUST_CRATES_ROOT` (`"third-party/rust/crates"`, per the
vendor-path comment at src/buckify.rs line 265), as components. -/
def RUST_CRATES_ROOT_SEGS : List Str := ["third-party".data, "rust".data, "crates".data]

/-- `get_vendor_dir` (src/utils.rs lines 369-371) for single-component
crate names and versions. -/
def get_vendor_dir (buck2_root : List Str) (name version : Str) : List Str :=
  buck2_root ++ RUST_CRATES_ROOT_SEGS ++ [name, version]

/-- The anchored regex `^([^+#]+)\+([^#]+)#([^@]+)@([^+#]+)(?:\+(.+))?$`
of `BuckalChange::apply`, specialized to the two captured groups the code
uses: returns `(name, version)` = (group 3, group 4) when the id matches.
Greediness is irrelevant: each class excludes its terminator, so every
group is the maximal run before the next separator. -/
def parse_package_id (id : Str) : Option (Str × Str) :=
  let g1 := id.takeWhile (fun c => c != '+' && c != '#')
  match id.drop g1.length with
  | '+' :: r2 =>
    if g1 = [] then none
    else
      let g2 := r2.takeWhile (fun c => c != '#')
      match r2.drop g2.length with
      | '#' :: r4 =>
        if g2 = [] then none
        else
          let g3 := r4.takeWhile (fun c => c != '@')
          match r4.drop g3.length with
          | '@' :: r6 =>
            if g3 = [] then none
            else
              let g4 := r6.takeWhile (fun c => c != '+' && c != '#')
              if g4 = [] then none
              else
                match r6.drop g4.length with
                | [] => some (g3, g4)
                | '+' :: r8 =>
                  if r8 ≠ [] ∧ r8.all (fun c => c != '\n') then some (g3, g4) else none
                | _ => none
          | _ => none
      | _ => none
  | _ => none

/-- The filesystem effect of one non-skipped `Removed` entry (src/buckify.rs
lines 866-878): delete the versioned vendor directory if it exists, then its
parent package directory if that directory exists and is now empty. -/
def removedFs (vendor_dir : List Str) (fs : FS) : FS :=
  let fs1 := if dirExists vendor_dir fs then removeDirAll vendor_dir fs else fs
  let package_dir := vendor_dir.dropLast
  if dirExists package_dir fs1 && !dirHasEntries package_dir fs1 then
    removeDirAll package_dir fs1
  else fs1

/-- The `ChangeType::Removed` arm of `BuckalChange::apply` (src/buckify.rs
lines 855-879), as a transformation of the filesystem: skip identifiers
matching the workspace root's `path+file://{workspace_root}` pattern,
otherwise parse the identifier (fatal if unparsable), delete the versioned
vendor directory, then its parent package directory if now empty. -/
def apply_removed (workspace_root : Str) (buck2_root : List Str) (id : Str) (fs : FS)
    : Except Str FS :=
  if ("path+file://".data ++ workspace_root).isPrefixOf id then .ok fs
  else
    match parse_package_id id with
    | none => .error "Failed to parse package ID".data
    | some nv =>
      .ok (removedFs (get_vendor_dir buck2_root nv.1 nv.2) fs)

/-- The rule-name component of a label: the part after the first colon that
follows the first `"//"` separator. -/
def nameAfterSep (s : Str) : Option Str :=
  match splitFirstOn sepSS s with
  | none => none
  | some p => (splitFirstOn colonP p.2).map Prod.snd

/-- A well-formed configured name: free of the `'/'` and `':'` label
metacharacters (as cell names and aliases read from `.buckconfig` are). -/
def cleanName (s : Str) : Prop := ∀ c ∈ s, c ≠ '/' ∧ c ≠ ':'

instance (s : Str) : Decidable (cleanName s) :=
  inferInstanceAs (Decidable (∀ c ∈ s, c ≠ '/' ∧ c ≠ ':'))

/-! ## Concrete configurations used by the example claims -/

/-- Cell map with a single cell `a` declared at path `a`. -/
def exCells1 : List (Str × Str) := [("a".data, "a".data)]

/-- The identity alias map `load_cell_aliases` builds for `exCells1`. -/
def exAliases1 : List (Str × Str) := [("a".data, "a".data)]

/-- A project root. -/
def exRoot1 : List Str := ["proj".data]

/-- A BUCK file directly at the project root (one root-relative component). -/
def exRootFile1 : List Str := ["proj".data, "BUCK".data]

/-- The rewriter specialized to the single-cell configuration and a
root-level declaring file. -/
def rewriteEx1 (t : Str) : Str :=
  rewrite_target_with_cell t exAliases1 exRoot1 exCells1 exCells1 exRootFile1

/-- Cell map of spec end-to-end example 2: `{root: ".", third_party: "third-party"}`. -/
def c4Cells : List (Str × Str) :=
  [("root".data, ".".data), ("third_party".data, "third-party".data)]

/-- Alias map of example 2 as built by `load_cell_aliases`: every cell name
mapped to itself plus `tp → third_party`. -/
def c4Aliases : List (Str × Str) :=
  [("root".data, "root".data), ("third_party".data, "third_party".data),
   ("tp".data, "third_party".data)]

/-- The `cell_mappings` of `find_cell_for_path` for example 2 (cells plus the
alias entry resolved to the aliased cell's path), iterated with the
canonical cell name first. -/
def c4MapsCanonFirst : List (Str × Str) :=
  [("root".data, ".".data), ("third_party".data, "third-party".data),
   ("tp".data, "third-party".data)]

/-- The same `cell_mappings` iterated with the alias entry first. -/
def c4MapsAliasFirst : List (Str × Str) :=
  [("tp".data, "third-party".data), ("root".data, ".".data),
   ("third_party".data, "third-party".data)]

/-- A BUCK file not at the project root (two root-relative components). -/
def c4File : List Str := ["proj".data, "third-party".data, "BUCK".data]

/-- The rewriter specialized to the example-2 configuration, parameterized by
the hash-map iteration order of `find_cell_for_path`. -/
def c4Rewrite (maps : List (Str × Str)) (t : Str) : Str :=
  rewrite_target_with_cell t c4Aliases exRoot1 c4Cells maps c4File

/-- Two cells declaring the same one-component path `p`. -/
def c6MapsAB : List (Str × Str) := [("a".data, "p".data), ("b".data, "p".data)]

/-- The same two declarations in the opposite iteration order. -/
def c6MapsBA : List (Str × Str) := [("b".data, "p".data), ("a".data, "p".data)]

/-- A run context over trivial probes: identity label rewriting (align_cells
off), every platform matching, the given package map and project root. -/
def unitCtx (pm : List (Str × CPackage)) (chk : List (Str × Str)) (root : List Str)
    : Ctx Unit :=
  { rewriteFn := fun s => s
    matchesP := fun _ => true
    packages_map := pm
    checksums_map := chk
    buck2_root := root
    inherit_workspace_deps := false
    root_id := []
    ignore_tests := false
    platformLookup := fun _ => none }

/-- A library unit named `alpha`. -/
def libTargetA : CTarget :=
  { name := "alpha".data, kind := [TargetKind.Lib]
    src_path := ["proj".data, "dep".data, "src".data, "lib.rs".data], test := false }

/-- A second library unit named `beta` in the same package. -/
def libTargetB : CTarget :=
  { name := "beta".data, kind := [TargetKind.Lib]
    src_path := ["proj".data, "dep".data, "src".data, "beta.rs".data], test := false }

/-- A first-party package exposing two library-family units. -/
def twoLibPkg : CPackage :=
  { name := "dep".data, version := "1.0.0".data
    manifest_path := ["proj".data, "dep".data, "Cargo.toml".data]
    targets := [libTargetA, libTargetB], source := none
    edition := "2021".data, links := none }

/-- A first-party package exposing exactly one library-family unit. -/
def oneLibPkg : CPackage :=
  { name := "dep".data, version := "1.0.0".data
    manifest_path := ["proj".data, "dep".data, "Cargo.toml".data]
    targets := [libTargetA], source := none
    edition := "2021".data, links := none }

/-- A Normal-kind, platform-free dependency edge on package id `id-dep`. -/
def depEdge : NodeDep Unit :=
  { pkg := "id-dep".data, name := "dep".data
    dep_kinds := [⟨DependencyKind.Normal, none⟩] }

/-- A node whose single dependency edge is `depEdge`. -/
def nodeOneDep : CNode Unit :=
  { id := "id-root".data, deps := [depEdge], features := [] }

/-- The library unit of the `serde` example package. -/
def serdeLibTarget : CTarget :=
  { name := "serde".data, kind := [TargetKind.Lib]
    src_path := ["proj".data, "serde".data, "src".data, "lib.rs".data], test := false }

/-- The `serde` example package, version 1.0.200, sourced from a registry. -/
def serdePkg : CPackage :=
  { name := "serde".data, version := "1.0.200".data
    manifest_path := ["proj".data, "serde".data, "Cargo.toml".data]
    targets := [serdeLibTarget]
    source := some "registry+https://github.com/rust-lang/crates.io-index".data
    edition := "2018".data, links := none }

/-- The resolved-graph node of the `serde` example package. -/
def serdeNode : CNode Unit :=
  { id := "id-serde".data, deps := [], features := ["default".data, "std".data] }

/-- A run context holding the `serde` package and its checksum entry. -/
def serdeCtx : Ctx Unit :=
  unitCtx [("id-serde".data, serdePkg)]
    [("serde-1.0.200".data, "cafebabe".data)] ["proj".data]

/-- A binary unit named `foo` of the workspace-root example package. -/
def binFoo : CTarget :=
  { name := "foo".data, kind := [TargetKind.Bin]
    src_path := ["proj".data, "src".data, "main.rs".data], test := false }

/-- A library unit named `foo`, colliding with the binary `foo`. -/
def libFoo : CTarget :=
  { name := "foo".data, kind := [TargetKind.Lib]
    src_path := ["proj".data, "src".data, "lib.rs".data], test := false }

/-- A library unit named `bar`, colliding with no binary. -/
def libBar : CTarget :=
  { name := "bar".data, kind := [TargetKind.Lib]
    src_path := ["proj".data, "src".data, "bar.rs".data], test := false }

/-- The workspace-root example package with the `foo`/`foo` collision. -/
def c8Pkg : CPackage :=
  { name := "rootpkg".data, version := "0.1.0".data
    manifest_path := ["proj".data, "Cargo.toml".data]
    targets := [binFoo, libFoo, libBar], source := none
    edition := "2021".data, links := none }

/-- The run context of the workspace-root example package. -/
def c8Ctx : Ctx Unit := unitCtx [("id-root".data, c8Pkg)] [] ["proj".data]

/-- The resolved-graph node of the workspace-root example package. -/
def c8Node : CNode Unit := { id := "id-root".data, deps := [], features := [] }

/-! ## Theorems -/

/-- C1 counterexample: label rewriting is not idempotent.  With the single
cell `a` declared at path `a` and a declaring file at the project root,
rewriting `//a/a/b:n` yields `a//a/b:n`, but rewriting that output strips
the cell path (a string prefix of the remaining path part) a second time
and yields `a//b:n`. -/
theorem rewrite_idem_cex :
    rewriteEx1 "//a/a/b:n".data = "a//a/b:n".data
    ∧ rewriteEx1 (rewriteEx1 "//a/a/b:n".data) = "a//b:n".data
    ∧ rewriteEx1 (rewriteEx1 "//a/a/b:n".data) ≠ rewriteEx1 "//a/a/b:n".data := by
  refine ⟨by decide, by decide, by decide⟩

/-- C4: end-to-end example 2 holds only for favourable hash-map iteration
orders.  With the canonical cell iterated before the alias, rewriting the
bare label yields `@third_party//rust/crates/foo/1.0:foo` and rewriting that
result is a no-op; but with the alias entry `tp` iterated first (a
permutation of the same mapping), the very same call yields
`@tp//third-party/rust/crates/foo/1.0:foo` instead. -/
theorem rewrite_example2_alias_order :
    c4Rewrite c4MapsCanonFirst "//third-party/rust/crates/foo/1.0:foo".data
      = "@third_party//rust/crates/foo/1.0:foo".data
    ∧ c4Rewrite c4MapsCanonFirst "@third_party//rust/crates/foo/1.0:foo".data
      = "@third_party//rust/crates/foo/1.0:foo".data
    ∧ c4Rewrite c4MapsAliasFirst "//third-party/rust/crates/foo/1.0:foo".data
      = "@tp//third-party/rust/crates/foo/1.0:foo".data
    ∧ c4MapsCanonFirst.Perm c4MapsAliasFirst := by
  refine ⟨by decide, by decide, by decide, by decide⟩

/-- C6: cell resolution is not deterministic on ties.  Two cells `a` and `b`
declare the same one-component path `p`; on the two iteration orders of the
same mapping (a permutation), `find_cell_for_path` returns `a` and `b`
respectively, so the tie is resolved by hash-map iteration order, which is
randomized between runs. -/
theorem find_cell_tie_order :
    find_cell_for_path c6MapsAB ["r".data, "p".data, "x".data] ["r".data] = some "a".data
    ∧ find_cell_for_path c6MapsBA ["r".data, "p".data, "x".data] ["r".data] = some "b".data
    ∧ c6MapsAB.Perm c6MapsBA := by
  refine ⟨by decide, by decide, by decide⟩

/-- Once the accumulator holds a candidate of length `n` and no remaining
entry matches with more than `n` components, the best-match fold keeps it
(ties do not replace the current candidate: the comparison is strict). -/
theorem foldl_bestStep_keep {rel : List Str} {c : Str} {n : Nat} :
    ∀ l : List (Str × Str),
    (∀ cm ∈ l, (pathComponents cm.2).isPrefixOf rel = true →
      (pathComponents cm.2).length ≤ n) →
    l.foldl (bestStep rel) (some (c, n)) = some (c, n) := by
  intro l
  induction l with
  | nil => intro _; rfl
  | cons x xs ih =>
    intro h
    have hstep : bestStep rel (some (c, n)) x = some (c, n) := by
      unfold bestStep
      by_cases hp : (pathComponents x.2).isPrefixOf rel = true
      · have hle := h x (List.mem_cons_self x xs) hp
        simp only [hp, if_true]
        have : ¬ ((pathComponents x.2).length > n) := Nat.not_lt.mpr hle
        simp [this]
      · simp only [Bool.not_eq_true] at hp
        simp [hp]
    rw [List.foldl_cons, hstep]
    exact ih (fun cm hm hpre => h cm (List.mem_cons_of_mem x hm) hpre)

/-- If some entry named `c` matches the relative path with `n` components,
every matching entry has at most `n` components, and every matching entry
with exactly `n` components is named `c`, then the best-match fold returns
`(c, n)` from any accumulator that is empty or dominated by `n`. -/
theorem foldl_bestStep_max {rel : List Str} {c : Str} {n : Nat} :
    ∀ (l : List (Str × Str)) (acc : Option (Str × Nat)),
    (∃ p, (c, p) ∈ l ∧ (pathComponents p).isPrefixOf rel = true ∧
      (pathComponents p).length = n) →
    (∀ cm ∈ l, (pathComponents cm.2).isPrefixOf rel = true →
      (pathComponents cm.2).length ≤ n) →
    (∀ cm ∈ l, (pathComponents cm.2).isPrefixOf rel = true →
      (pathComponents cm.2).length = n → cm.1 = c) →
    (acc = none ∨ ∃ c0 m, acc = some (c0, m) ∧ (m < n ∨ (m = n ∧ c0 = c))) →
    l.foldl (bestStep rel) acc = some (c, n) := by
  intro l
  induction l with
  | nil =>
    intro acc hmem _ _ _
    rcases hmem with ⟨p, hp, _, _⟩
    exact absurd hp (List.not_mem_nil _)
  | cons x xs ih =>
    intro acc hmem hmax huni hacc
    rw [List.foldl_cons]
    by_cases hp : (pathComponents x.2).isPrefixOf rel = true
    · by_cases hn : (pathComponents x.2).length = n
      · have hx1 : x.1 = c := huni x (List.mem_cons_self x xs) hp hn
        have hacc' : bestStep rel acc x = some (c, n) := by
          rcases hacc with h0 | ⟨c0, m, heq, hm⟩
          · subst h0
            unfold bestStep
            simp [hp, hx1, hn]
          · subst heq
            unfold bestStep
            dsimp only
            simp only [hp, if_true]
            rcases hm with hm | ⟨hm, hc0⟩
            · have hgt : (pathComponents x.2).length > m := by omega
              rw [if_pos hgt, hx1, hn]
            · have hngt : ¬ ((pathComponents x.2).length > m) := by omega
              rw [if_neg hngt, hc0, hm]
        rw [hacc']
        exact foldl_bestStep_keep xs
          (fun cm hm hpre => hmax cm (List.mem_cons_of_mem x hm) hpre)
      · have hlt : (pathComponents x.2).length < n :=
          Nat.lt_of_le_of_ne (hmax x (List.mem_cons_self x xs) hp) hn
        rcases hmem with ⟨p, hpm, hppre, hpn⟩
        have hpm' : (c, p) ∈ xs := by
          rcases List.mem_cons.mp hpm with heq | hin
          · exfalso
            have : x.2 = p := by rw [← heq]
            rw [this] at hn
            exact hn hpn
          · exact hin
        apply ih (bestStep rel acc x) ⟨p, hpm', hppre, hpn⟩
          (fun cm hm hpre => hmax cm (List.mem_cons_of_mem x hm) hpre)
          (fun cm hm hpre hlen => huni cm (List.mem_cons_of_mem x hm) hpre hlen)
        unfold bestStep
        rcases hacc with h0 | ⟨c0, m, heq, hm⟩
        · subst h0
          simp only [hp, if_true]
          exact Or.inr ⟨x.1, _, rfl, Or.inl hlt⟩
        · subst heq
          simp only [hp, if_true]
          by_cases hgt : (pathComponents x.2).length > m
          · simp only [hgt, if_true]
            exact Or.inr ⟨x.1, _, rfl, Or.inl hlt⟩
          · simp only [hgt, if_false]
            exact Or.inr ⟨c0, m, rfl, hm⟩
    · rcases hmem with ⟨p, hpm, hppre, hpn⟩
      have hpm' : (c, p) ∈ xs := by
        rcases List.mem_cons.mp hpm with heq | hin
        · exfalso
          have : x.2 = p := by rw [← heq]
          rw [this] at hp
          exact hp hppre
        · exact hin
      have hacc' : bestStep rel acc x = acc := by
        unfold bestStep
        simp [hp]
      rw [hacc']
      exact ih acc ⟨p, hpm', hppre, hpn⟩
        (fun cm hm hpre => hmax cm (List.mem_cons_of_mem x hm) hpre)
        (fun cm hm hpre hlen => huni cm (List.mem_cons_of_mem x hm) hpre hlen)
        hacc

/-- C2: cell resolution picks the most specific declaration.  If the path
strips to a root-relative form `rel`, the mapping declares `c` at a path
whose components (`pathComponents`) form a prefix of `rel` of length `n`,
and every *other* prefix-matching declaration is strictly shorter, then
`find_cell_for_path` returns `c` regardless of the iteration order; in
particular (witness) with `root → "."` and `sub → "a/b"`, a path under
`a/b/c` resolves to `sub`, not `root`. -/
theorem find_cell_specificity (mappings : List (Str × Str))
    (path buck2_root rel : List Str) (c p : Str) (n : Nat)
    (hstrip : stripPrefixPath buck2_root path = some rel)
    (hc : (c, p) ∈ mappings)
    (hcpre : (pathComponents p).isPrefixOf rel = true)
    (hn : (pathComponents p).length = n)
    (hmapkeys : ∀ cm ∈ mappings, cm.1 = c → cm.2 = p)
    (hother : ∀ cm ∈ mappings, cm.1 ≠ c → (pathComponents cm.2).isPrefixOf rel = true →
      (pathComponents cm.2).length < n) :
    find_cell_for_path mappings path buck2_root = some c := by
  unfold find_cell_for_path
  rw [hstrip]
  have hmax : ∀ cm ∈ mappings, (pathComponents cm.2).isPrefixOf rel = true →
      (pathComponents cm.2).length ≤ n := by
    intro cm hm hpre
    by_cases hcm : cm.1 = c
    · rw [hmapkeys cm hm hcm, hn]
    · exact Nat.le_of_lt (hother cm hm hcm hpre)
  have huni : ∀ cm ∈ mappings, (pathComponents cm.2).isPrefixOf rel = true →
      (pathComponents cm.2).length = n → cm.1 = c := by
    intro cm hm hpre hlen
    by_contra hcm
    exact absurd hlen (Nat.ne_of_lt (hother cm hm hcm hpre))
  dsimp only
  rw [foldl_bestStep_max mappings none ⟨p, hc, hcpre, hn⟩ hmax huni (Or.inl rfl)]
  rfl

/-- C2 witness: with declarations `root → "."` and `sub → "a/b"`, the path
`proj/a/b/c` under the project root `proj` resolves to `sub`. -/
theorem find_cell_specificity_witness :
    find_cell_for_path [("root".data, ".".data), ("sub".data, "a/b".data)]
      ["proj".data, "a".data, "b".data, "c".data] ["proj".data] = some "sub".data := by
  apply find_cell_specificity _ _ _ ["a".data, "b".data, "c".data] _ "a/b".data 2
  · decide
  · decide
  · decide
  · decide
  · decide
  · decide

/-- C3: dependency-edge classification by unit kind.  Normal-kind pairs
select the edge for every unit kind except `CustomBuild`; Build-kind pairs
only for `CustomBuild`; Development-kind pairs only for `Test`; hence an
edge carrying only Development kinds is never selected for a non-Test unit
and an edge carrying only Build kinds is never selected outside a
`CustomBuild` unit.  A pair with a platform predicate must additionally
pass the platform check, and a pair without one always passes it. -/
theorem dep_classifier_kinds {π : Type} (matchesP : π → Bool) (kind : CargoTargetKind)
    (dks : List (DepKindInfo π)) :
    ((∀ dk ∈ dks, dk.kind = DependencyKind.Development) → kind ≠ CargoTargetKind.Test →
      dep_edge_selected matchesP kind dks = false)
    ∧ ((∀ dk ∈ dks, dk.kind = DependencyKind.Build) → kind ≠ CargoTargetKind.CustomBuild →
      dep_edge_selected matchesP kind dks = false)
    ∧ (∀ dk ∈ dks, dk.kind = DependencyKind.Normal → check_dep_target matchesP dk = true →
      kind ≠ CargoTargetKind.CustomBuild → dep_edge_selected matchesP kind dks = true)
    ∧ ((∀ dk ∈ dks, dk.kind = DependencyKind.Normal) → kind = CargoTargetKind.CustomBuild →
      dep_edge_selected matchesP kind dks = false)
    ∧ (∀ dk ∈ dks, dk.kind = DependencyKind.Build → check_dep_target matchesP dk = true →
      kind = CargoTargetKind.CustomBuild → dep_edge_selected matchesP kind dks = true)
    ∧ (∀ dk ∈ dks, dk.kind = DependencyKind.Development → check_dep_target matchesP dk = true →
      kind = CargoTargetKind.Test → dep_edge_selected matchesP kind dks = true)
    ∧ (∀ k : DependencyKind, ∀ pl : Option π, pl = none →
      check_dep_target matchesP ⟨k, pl⟩ = true) := by
  refine ⟨?_, ?_, ?_, ?_, ?_, ?_, ?_⟩
  · intro hall hne
    simp only [dep_edge_selected, List.any_eq_false]
    intro dk hdk
    rw [hall dk hdk]
    cases kind <;> simp_all
  · intro hall hne
    simp only [dep_edge_selected, List.any_eq_false]
    intro dk hdk
    rw [hall dk hdk]
    cases kind <;> simp_all
  · intro dk hdk hk hchk hne
    simp only [dep_edge_selected, List.any_eq_true]
    refine ⟨dk, hdk, ?_⟩
    rw [hk, hchk]
    cases kind <;> simp_all
  · intro hall hk
    subst hk
    simp only [dep_edge_selected, List.any_eq_false]
    intro dk hdk
    rw [hall dk hdk]
    simp
  · intro dk hdk hk hchk hkind
    subst hkind
    simp only [dep_edge_selected, List.any_eq_true]
    refine ⟨dk, hdk, ?_⟩
    rw [hk, hchk]
    simp
  · intro dk hdk hk hchk hkind
    subst hkind
    simp only [dep_edge_selected, List.any_eq_true]
    refine ⟨dk, hdk, ?_⟩
    rw [hk, hchk]
    simp
  · intro k pl hpl
    subst hpl
    rfl

/-- C3 witness: a Development-only edge is not selected for a `Lib` unit, a
Build-only edge is not selected for a `Bin` unit, a Normal edge with no
platform predicate is selected for a `Lib` unit, a Build edge is selected
for a `CustomBuild` unit, a Development edge is selected for a `Test` unit,
and an absent platform predicate always matches. -/
theorem dep_classifier_kinds_witness :
    dep_edge_selected (fun _ : Unit => true) CargoTargetKind.Lib
      [⟨DependencyKind.Development, none⟩] = false
    ∧ dep_edge_selected (fun _ : Unit => true) CargoTargetKind.Bin
      [⟨DependencyKind.Build, none⟩] = false
    ∧ dep_edge_selected (fun _ : Unit => true) CargoTargetKind.Lib
      [⟨DependencyKind.Normal, none⟩] = true
    ∧ dep_edge_selected (fun _ : Unit => true) CargoTargetKind.CustomBuild
      [⟨DependencyKind.Build, none⟩] = true
    ∧ dep_edge_selected (fun _ : Unit => true) CargoTargetKind.Test
      [⟨DependencyKind.Development, none⟩] = true
    ∧ check_dep_target (fun _ : Unit => true) ⟨DependencyKind.Normal, none⟩ = true := by
  refine ⟨?_, ?_, ?_, ?_, ?_, ?_⟩
  · exact (dep_classifier_kinds (fun _ => true) CargoTargetKind.Lib _).1
      (by intro dk hdk; simp_all) (by intro h; cases h)
  · exact (dep_classifier_kinds (fun _ => true) CargoTargetKind.Bin _).2.1
      (by intro dk hdk; simp_all) (by intro h; cases h)
  · exact (dep_classifier_kinds (fun _ => true) CargoTargetKind.Lib _).2.2.1
      ⟨DependencyKind.Normal, none⟩ (by simp) rfl rfl (by intro h; cases h)
  · exact (dep_classifier_kinds (fun _ => true) CargoTargetKind.CustomBuild _).2.2.2.2.1
      ⟨DependencyKind.Build, none⟩ (by simp) rfl rfl rfl
  · exact (dep_classifier_kinds (fun _ => true) CargoTargetKind.Test _).2.2.2.2.2.1
      ⟨DependencyKind.Development, none⟩ (by simp) rfl rfl rfl
  · exact (dep_classifier_kinds (fun _ => true) CargoTargetKind.Lib
      ([] : List (DepKindInfo Unit))).2.2.2.2.2.2 DependencyKind.Normal none rfl

/-- C5: a first-party dependency must expose exactly one library-family
unit.  For a selected first-party edge (package without a source marker,
manifest under the project root), `set_deps` aborts with the fatal
"Expected exactly one library target" error whenever the dependency's
library-family unit count differs from one (in particular when it is two),
and succeeds when the count is exactly one. -/
theorem first_party_single_lib {π : Type} (ctx : Ctx π) (node : CNode π)
    (kind : CargoTargetKind) (dep : NodeDep π) (dep_package : CPackage) (rel : List Str)
    (hdeps : node.deps = [dep])
    (hpkg : alookup ctx.packages_map dep.pkg = some dep_package)
    (hsel : dep_edge_selected ctx.matchesP kind dep.dep_kinds = true)
    (hfp : dep_package.source = none)
    (hrel : stripPrefixPath ctx.buck2_root dep_package.manifest_path.dropLast = some rel) :
    ((get_lib_targets dep_package).length ≠ 1 →
      set_deps ctx node kind ([], []) =
        .error ("Expected exactly one library target for dependency ".data
          ++ dep_package.name ++ ", but found ".data
          ++ (toString (get_lib_targets dep_package).length).data))
    ∧ (∀ libt, get_lib_targets dep_package = [libt] →
      ∃ r, set_deps ctx node kind ([], []) = .ok r) := by
  constructor
  · intro hlen
    rw [set_deps, hdeps, List.foldlM_cons]
    have hstep : set_deps_step ctx node.id kind ([], []) dep =
        .error ("Expected exactly one library target for dependency ".data
          ++ dep_package.name ++ ", but found ".data
          ++ (toString (get_lib_targets dep_package).length).data) := by
      unfold set_deps_step
      simp only [hpkg, hsel, hfp, hrel, if_true]
      rcases hgt : get_lib_targets dep_package with _ | ⟨t, ts⟩
      · simp [hgt]
      · cases ts with
        | nil =>
          exfalso
          apply hlen
          rw [hgt]
          rfl
        | cons t2 ts2 => simp [hgt]
    rw [hstep]
    rfl
  · intro libt hgt
    rw [set_deps, hdeps, List.foldlM_cons]
    have hstep : ∃ r, set_deps_step ctx node.id kind ([], []) dep = .ok r := by
      unfold set_deps_step
      simp only [hpkg, hsel, hfp, hrel, if_true, hgt]
      split
      · exact ⟨_, rfl⟩
      · exact ⟨_, rfl⟩
    rcases hstep with ⟨r, hr⟩
    rw [hr]
    exact ⟨r, rfl⟩

/-- C5 witness: for the two-library first-party package `dep`, classification
aborts with the fatal message naming the package and the count 2; for the
one-library variant it succeeds. -/
theorem first_party_single_lib_witness :
    set_deps (unitCtx [("id-dep".data, twoLibPkg)] [] ["proj".data]) nodeOneDep
      CargoTargetKind.Lib ([], []) =
      .error "Expected exactly one library target for dependency dep, but found 2".data
    ∧ ∃ r, set_deps (unitCtx [("id-dep".data, oneLibPkg)] [] ["proj".data]) nodeOneDep
      CargoTargetKind.Lib ([], []) = .ok r := by
  constructor

  · have h := (first_party_single_lib (unitCtx [("id-dep".data, twoLibPkg)] [] ["proj".data])
      nodeOneDep CargoTargetKind.Lib depEdge twoLibPkg ["dep".data]
      rfl rfl rfl rfl rfl).1 (by decide)
    rw [h]
    have : "Expected exactly one library target for dependency ".data
        ++ twoLibPkg.name ++ ", but found ".data
        ++ (toString (get_lib_targets twoLibPkg).length).data
        = "Expected exactly one library target for dependency dep, but found 2".data := by
      decide
    rw [this]
  · exact (first_party_single_lib (unitCtx [("id-dep".data, oneLibPkg)] [] ["proj".data])
      nodeOneDep CargoTargetKind.Lib depEdge oneLibPkg ["dep".data]
      rfl rfl rfl rfl rfl).2 libTargetA rfl

/-- Membership after `remove_dir_all`: survivors are exactly the paths not
under the removed one. -/
theorem mem_removeDirAll {p q : List Str} {fs : FS} :
    q ∈ removeDirAll p fs ↔ q ∈ fs ∧ p.isPrefixOf q = false := by
  simp [removeDirAll, List.mem_filter]

/-- `Path::exists` agrees with membership in the filesystem model. -/
theorem dirExists_iff {p : List Str} {fs : FS} : dirExists p fs = true ↔ p ∈ fs := by
  simp [dirExists, List.contains_iff_exists_mem_beq, beq_iff_eq]

/-- A conditional `remove_dir_all` only deletes paths. -/
theorem mem_of_mem_condRemove {P : Prop} [Decidable P] {d p : List Str} {l : FS}
    (h : p ∈ (if P then removeDirAll d l else l)) : p ∈ l := by
  split at h
  · exact (mem_removeDirAll.mp h).1
  · exact h

/-- A path not under the removed directory survives a conditional
`remove_dir_all`. -/
theorem mem_condRemove_of {P : Prop} [Decidable P] {d p : List Str} {l : FS}
    (h : p ∈ l) (hd : d.isPrefixOf p = false) : p ∈ (if P then removeDirAll d l else l) := by
  split
  · exact mem_removeDirAll.mpr ⟨h, hd⟩
  · exact h

/-- When the condition holds, nothing under the removed directory survives. -/
theorem not_under_of_mem_condRemove {P : Prop} [Decidable P] {d p : List Str} {l : FS}
    (hP : P) (h : p ∈ (if P then removeDirAll d l else l)) : d.isPrefixOf p = false := by
  rw [if_pos hP] at h
  exact (mem_removeDirAll.mp h).2

/-- Properties of the `Removed` filesystem effect: it only deletes paths, it
never touches a path outside the parent package directory, the vendor
directory itself is gone afterwards, and — when the filesystem lists the
vendor directory whenever anything lies beneath it — nothing beneath the
vendor directory survives. -/
theorem removedFs_spec (v : List Str) (fs : FS) :
    (∀ p ∈ removedFs v fs, p ∈ fs)
    ∧ (∀ p ∈ fs, v.dropLast.isPrefixOf p = false → p ∈ removedFs v fs)
    ∧ v ∉ removedFs v fs
    ∧ ((∀ q ∈ fs, v.isPrefixOf q = true → v ∈ fs) →
      ∀ p ∈ removedFs v fs, v.isPrefixOf p = false) := by
  have hreflv : v.isPrefixOf v = true :=
    List.isPrefixOf_iff_prefix.mpr (List.prefix_refl v)
  have hsub1 : ∀ p, p ∈ removedFs v fs →
      p ∈ (if dirExists v fs = true then removeDirAll v fs else fs) := by
    intro p hp
    unfold removedFs at hp
    exact mem_of_mem_condRemove hp
  have hsub : ∀ p ∈ removedFs v fs, p ∈ fs := by
    intro p hp
    exact mem_of_mem_condRemove (hsub1 p hp)
  refine ⟨hsub, ?_, ?_, ?_⟩
  · intro p hp hout
    have hv : v.isPrefixOf p = false := by
      by_cases h : v.isPrefixOf p = true
      · exfalso
        have hd : v.dropLast.isPrefixOf p = true := by
          rw [List.isPrefixOf_iff_prefix] at h ⊢
          exact (List.dropLast_prefix v).trans h
        rw [hd] at hout
        cases hout
      · exact Bool.eq_false_iff.mpr h
    unfold removedFs
    dsimp only
    exact mem_condRemove_of (mem_condRemove_of hp hv) hout
  · intro hv
    by_cases hex : dirExists v fs = true
    · have := not_under_of_mem_condRemove hex (hsub1 v hv)
      rw [hreflv] at this
      cases this
    · exact hex (dirExists_iff.mpr (hsub v hv))
  · intro hclosed p hp
    by_cases hpre : v.isPrefixOf p = true
    · exfalso
      have hvfs : v ∈ fs := hclosed p (hsub p hp) hpre
      have := not_under_of_mem_condRemove (dirExists_iff.mpr hvfs) (hsub1 p hp)
      rw [hpre] at this
      cases this
    · exact Bool.eq_false_iff.mpr hpre

/-- C7: removal safety.  A `Removed` entry whose identifier matches the
workspace root's `path+file://{workspace_root}` locator pattern is skipped —
the filesystem is returned entirely unchanged.  A non-matching parseable
entry yields exactly the `removedFs` effect on its versioned vendor
directory: only paths under the vendor package directory can be deleted, the
vendor directory itself is deleted, and everything outside the package
directory survives. -/
theorem removed_skip_safety (workspace_root : Str) (buck2_root : List Str) (id : Str)
    (fs : FS) (name version : Str) :
    (("path+file://".data ++ workspace_root).isPrefixOf id = true →
      apply_removed workspace_root buck2_root id fs = .ok fs)
    ∧ (("path+file://".data ++ workspace_root).isPrefixOf id = false →
      parse_package_id id = some (name, version) →
      apply_removed workspace_root buck2_root id fs =
        .ok (removedFs (get_vendor_dir buck2_root name version) fs)
      ∧ get_vendor_dir buck2_root name version
          ∉ removedFs (get_vendor_dir buck2_root name version) fs
      ∧ (∀ p ∈ removedFs (get_vendor_dir buck2_root name version) fs, p ∈ fs)
      ∧ (∀ p ∈ fs, (get_vendor_dir buck2_root name version).dropLast.isPrefixOf p = false →
        p ∈ removedFs (get_vendor_dir buck2_root name version) fs)) := by
  constructor
  · intro hskip
    unfold apply_removed
    rw [if_pos hskip]
  · intro hskip hparse
    have hmain : apply_removed workspace_root buck2_root id fs =
        .ok (removedFs (get_vendor_dir buck2_root name version) fs) := by
      unfold apply_removed
      rw [if_neg (by rw [hskip]; exact Bool.false_ne_true), hparse]
    have hspec := removedFs_spec (get_vendor_dir buck2_root name version) fs
    exact ⟨hmain, hspec.2.2.1, hspec.1, hspec.2.1⟩

/-- C7 witness: a root-locator identifier is skipped and deletes nothing; a
registry identifier `registry+https://crates.io#dep@1.0.0` has its vendor
directory deleted while the unrelated root BUCK file survives. -/
theorem removed_skip_safety_witness :
    apply_removed "/w".data ["proj".data]
      "path+file:///w#myroot@0.1.0".data
      [["proj".data, "BUCK".data]] = .ok [["proj".data, "BUCK".data]]
    ∧ (apply_removed "/w".data ["proj".data]
        "registry+https://crates.io#dep@1.0.0".data
        [["proj".data, "BUCK".data],
         ["proj".data, "third-party".data, "rust".data, "crates".data, "dep".data,
          "1.0.0".data]] =
        .ok (removedFs (get_vendor_dir ["proj".data] "dep".data "1.0.0".data)
          [["proj".data, "BUCK".data],
           ["proj".data, "third-party".data, "rust".data, "crates".data, "dep".data,
            "1.0.0".data]])
      ∧ get_vendor_dir ["proj".data] "dep".data "1.0.0".data
          ∉ removedFs (get_vendor_dir ["proj".data] "dep".data "1.0.0".data)
            [["proj".data, "BUCK".data],
             ["proj".data, "third-party".data, "rust".data, "crates".data, "dep".data,
              "1.0.0".data]]
      ∧ ["proj".data, "BUCK".data]
          ∈ removedFs (get_vendor_dir ["proj".data] "dep".data "1.0.0".data)
            [["proj".data, "BUCK".data],
             ["proj".data, "third-party".data, "rust".data, "crates".data, "dep".data,
              "1.0.0".data]]) := by
  constructor
  · exact (removed_skip_safety "/w".data ["proj".data]
      "path+file:///w#myroot@0.1.0".data [["proj".data, "BUCK".data]]
      "myroot".data "0.1.0".data).1 (by decide)
  · have h := (removed_skip_safety "/w".data ["proj".data]
      "registry+https://crates.io#dep@1.0.0".data
      [["proj".data, "BUCK".data],
       ["proj".data, "third-party".data, "rust".data, "crates".data, "dep".data,
        "1.0.0".data]]
      "dep".data "1.0.0".data).2 (by decide) (by decide)
    exact ⟨h.1, h.2.1, h.2.2.2 ["proj".data, "BUCK".data] (by decide) (by decide)⟩

/-- C9: a registry dependency package named `serde` at version `1.0.200`
(with the conventional lib unit named `serde`, no build script, a checksum
entry, and successful dependency classification) translates to exactly a
vendor-fetch rule `serde-vendor` with the single URL
`https://static.crates.io/crates/serde/serde-1.0.200.crate` and strip-prefix
`serde-1.0.200`, a manifest rule `serde-manifest`, and a library rule named
`serde` with crate name `serde`. -/
theorem serde_example {π : Type} (ctx : Ctx π) (node : CNode π) (package : CPackage)
    (checksum : Str) (libt : CTarget) (rel : List Str) (dn : List Str × List (Str × Str))
    (hpkg : alookup ctx.packages_map node.id = some package)
    (hname : package.name = "serde".data)
    (hver : package.version = "1.0.200".data)
    (hfind : package.targets.find? is_lib_family = some libt)
    (hlibname : libt.name = "serde".data)
    (hnocb : package.targets.find? (fun t => t.kind.contains TargetKind.CustomBuild) = none)
    (hchk : alookup ctx.checksums_map "serde-1.0.200".data = some checksum)
    (hstrip : stripPrefixPath package.manifest_path.dropLast libt.src_path = some rel)
    (hdeps : set_deps ctx node CargoTargetKind.Lib ([], []) = .ok dn) :
    buckify_dep_node ctx node = .ok
      [Rule.HttpArchive
        { name := "serde-vendor".data
          urls := ["https://static.crates.io/crates/serde/serde-1.0.200.crate".data]
          sha256 := checksum
          typ := "tar.gz".data
          stripPrefixField := "serde-1.0.200".data
          out := some "vendor".data },
       Rule.CargoManifest
        { name := "serde-manifest".data
          vendor := ":serde-vendor".data },
       Rule.RustLibrary
        { name := "serde".data
          srcs := [":serde-vendor".data]
          crate_name := "serde".data
          edition := package.edition
          features := node.features
          rustc_flags := ["@$(location :serde-manifest[env_flags])".data]
          visibility := ["PUBLIC".data]
          proc_macro := if libt.kind.contains TargetKind.ProcMacro then some true else none
          crate_root := "vendor/".data ++ joinPath rel
          compatible_with := (ctx.platformLookup "serde".data).getD []
          deps := dn.1
          named_deps := dn.2
          env := [] }] := by
  have hkey : package.name ++ "-".data ++ package.version = "serde-1.0.200".data := by
    rw [hname, hver]
    decide
  have hha : emit_http_archive ctx package = .ok
      { name := "serde-vendor".data
        urls := ["https://static.crates.io/crates/serde/serde-1.0.200.crate".data]
        sha256 := checksum
        typ := "tar.gz".data
        stripPrefixField := "serde-1.0.200".data
        out := some "vendor".data } := by
    unfold emit_http_archive
    rw [hkey, hchk]
    rw [hname, hver]
    dsimp only
    rfl
  have hrl : emit_rust_library ctx package node libt package.manifest_path.dropLast
      package.name = .ok
      { name := "serde".data
        srcs := [":serde-vendor".data]
        crate_name := "serde".data
        edition := package.edition
        features := node.features
        rustc_flags := ["@$(location :serde-manifest[env_flags])".data]
        visibility := ["PUBLIC".data]
        proc_macro := if libt.kind.contains TargetKind.ProcMacro then some true else none
        crate_root := "vendor/".data ++ joinPath rel
        compatible_with := (ctx.platformLookup "serde".data).getD []
        deps := dn.1
        named_deps := dn.2
        env := [] } := by
    unfold emit_rust_library
    rw [hstrip]
    dsimp only
    rw [hdeps]
    dsimp only
    simp only [get_vendor_target, manifest_flags, hname, hlibname]
    rfl
  have hcm : emit_cargo_manifest package =
      { name := "serde-manifest".data, vendor := ":serde-vendor".data } := by
    unfold emit_cargo_manifest get_vendor_target
    rw [hname]
    rfl
  unfold buckify_dep_node
  rw [hpkg]
  dsimp only
  rw [hfind]
  dsimp only
  rw [hha]
  dsimp only
  rw [hcm, hrl]
  dsimp only
  rw [hnocb]

/-- C9 witness: the concrete `serde` 1.0.200 package translates to the three
rules with the claimed names, URL, strip-prefix and crate name. -/
theorem serde_example_witness :
    buckify_dep_node serdeCtx serdeNode = .ok
      [Rule.HttpArchive
        { name := "serde-vendor".data
          urls := ["https://static.crates.io/crates/serde/serde-1.0.200.crate".data]
          sha256 := "cafebabe".data
          typ := "tar.gz".data
          stripPrefixField := "serde-1.0.200".data
          out := some "vendor".data },
       Rule.CargoManifest
        { name := "serde-manifest".data
          vendor := ":serde-vendor".data },
       Rule.RustLibrary
        { name := "serde".data
          srcs := [":serde-vendor".data]
          crate_name := "serde".data
          edition := "2018".data
          features := ["default".data, "std".data]
          rustc_flags := ["@$(location :serde-manifest[env_flags])".data]
          visibility := ["PUBLIC".data]
          proc_macro := none
          crate_root := "vendor/src/lib.rs".data
          compatible_with := []
          deps := []
          named_deps := []
          env := [] }] := by
  have h := serde_example serdeCtx serdeNode serdePkg "cafebabe".data serdeLibTarget
    ["src".data, "lib.rs".data] ([], [])
    rfl rfl rfl rfl rfl rfl rfl rfl rfl
  rw [h]
  congr 1

/-- An element is a member of the set after inserting it. -/
theorem mem_insertSet_self (s : List Str) (x : Str) : x ∈ insertSet s x := by
  unfold insertSet
  split
  · assumption
  · exact List.mem_append_right _ (List.mem_singleton.mpr rfl)

/-- Inversion for `mapM` over `Except`: if the traversal succeeds, every
input element was mapped to some element of the output. -/
theorem exceptMapM_ok_mem {α β : Type} {f : α → Except Str β} :
    ∀ {l : List α} {res : List β}, l.mapM f = .ok res → ∀ a ∈ l, ∃ b ∈ res, f a = .ok b := by
  intro l
  induction l with
  | nil =>
    intro res _ a ha
    exact absurd ha (List.not_mem_nil a)
  | cons x xs ih =>
    intro res h a ha
    rw [List.mapM_cons] at h
    cases hfx : f x with
    | error e =>
      rw [hfx] at h
      exact Except.noConfusion h
    | ok b =>
      cases hxs : xs.mapM f with
      | error e =>
        rw [hfx, hxs] at h
        exact Except.noConfusion h
      | ok bs =>
        rw [hfx, hxs] at h
        have hres : b :: bs = res := Except.ok.inj h
        rcases List.mem_cons.mp ha with rfl | hmem
        · exact ⟨b, by rw [← hres]; exact List.mem_cons_self _ _, hfx⟩
        · rcases ih hxs a hmem with ⟨bb, hbb, hfbb⟩
          exact ⟨bb, by rw [← hres]; exact List.mem_cons_of_mem _ hbb, hfbb⟩

/-- A successful `emit_rust_binary` names the rule by the given name. -/
theorem emit_rust_binary_ok_name {π : Type} {ctx : Ctx π} {package : CPackage}
    {node : CNode π} {bin_target : CTarget} {manifest_dir : List Str}
    {buckal_name : Str} {rb : RustBinary}
    (h : emit_rust_binary ctx package node bin_target manifest_dir buckal_name = .ok rb) :
    rb.name = buckal_name := by
  unfold emit_rust_binary at h
  cases hs : stripPrefixPath manifest_dir bin_target.src_path with
  | none =>
    rw [hs] at h
    exact Except.noConfusion h
  | some rel =>
    rw [hs] at h
    dsimp only at h
    cases hd : set_deps ctx node CargoTargetKind.Bin ([], []) with
    | error e =>
      rw [hd] at h
      exact Except.noConfusion h
    | ok dn =>
      rw [hd] at h
      dsimp only at h
      rw [← Except.ok.inj h]

/-- A successful `emit_rust_library` names the rule by the given name. -/
theorem emit_rust_library_ok_name {π : Type} {ctx : Ctx π} {package : CPackage}
    {node : CNode π} {lib_target : CTarget} {manifest_dir : List Str}
    {buckal_name : Str} {rl : RustLibrary}
    (h : emit_rust_library ctx package node lib_target manifest_dir buckal_name = .ok rl) :
    rl.name = buckal_name := by
  unfold emit_rust_library at h
  cases hs : stripPrefixPath manifest_dir lib_target.src_path with
  | none =>
    rw [hs] at h
    exact Except.noConfusion h
  | some rel =>
    rw [hs] at h
    dsimp only at h
    cases hd : set_deps ctx node CargoTargetKind.Lib ([], []) with
    | error e =>
      rw [hd] at h
      exact Except.noConfusion h
    | ok dn =>
      rw [hd] at h
      dsimp only at h
      rw [← Except.ok.inj h]

/-- A successful binary-loop step yields a binary rule named after the
target, carrying the implicit `:lib{name}` dependency when a library target
shares the name. -/
theorem root_bin_rule_ok {π : Type} {ctx : Ctx π} {package : CPackage} {node : CNode π}
    {manifest_dir : List Str} {lib_targets : List CTarget} {bin_target : CTarget} {r : Rule}
    (h : root_bin_rule ctx package node manifest_dir lib_targets bin_target = .ok r) :
    ∃ rb : RustBinary, r = Rule.RustBinary rb ∧ rb.name = bin_target.name
      ∧ (lib_targets.any (fun l => l.name == bin_target.name) = true →
        (':' :: "lib".data ++ bin_target.name) ∈ rb.deps) := by
  unfold root_bin_rule at h
  cases he : emit_rust_binary ctx package node bin_target manifest_dir bin_target.name with
  | error e =>
    rw [he] at h
    exact Except.noConfusion h
  | ok rb0 =>
    rw [he] at h
    dsimp only at h
    by_cases hany : lib_targets.any (fun l => l.name == bin_target.name) = true
    · rw [if_pos hany] at h
      refine ⟨_, (Except.ok.inj h).symm, ?_, fun _ => ?_⟩
      · show rb0.name = bin_target.name
        exact emit_rust_binary_ok_name he
      · show _ ∈ insertSet rb0.deps _
        exact mem_insertSet_self rb0.deps _
    · rw [if_neg hany] at h
      exact ⟨rb0, (Except.ok.inj h).symm, emit_rust_binary_ok_name he,
        fun hc => absurd hc hany⟩

/-- A successful library-loop step yields (among its rules) a library rule
named `lib{name}` when a binary target shares the name, and `{name}`
otherwise. -/
theorem root_lib_rules_ok {π : Type} {ctx : Ctx π} {package : CPackage} {node : CNode π}
    {manifest_dir : List Str} {bin_targets : List CTarget} {lib_target : CTarget}
    {rs : List Rule}
    (h : root_lib_rules ctx package node manifest_dir bin_targets lib_target = .ok rs) :
    ∃ rl : RustLibrary, Rule.RustLibrary rl ∈ rs ∧
      rl.name = (if bin_targets.any (fun b => b.name == lib_target.name)
        then "lib".data ++ lib_target.name else lib_target.name) := by
  unfold root_lib_rules at h
  dsimp only at h
  cases he : emit_rust_library ctx package node lib_target manifest_dir
      (if bin_targets.any (fun b => b.name == lib_target.name)
        then "lib".data ++ lib_target.name else lib_target.name) with
  | error e =>
    rw [he] at h
    exact Except.noConfusion h
  | ok rl =>
    rw [he] at h
    dsimp only at h
    split at h
    · cases ht : emit_rust_test ctx package node lib_target manifest_dir
          (lib_target.name ++ "-unittest".data) with
      | error e =>
        rw [ht] at h
        exact Except.noConfusion h
      | ok rt =>
        rw [ht] at h
        rw [← Except.ok.inj h]
        exact ⟨rl, List.mem_cons_self _ _, emit_rust_library_ok_name he⟩
    · rw [← Except.ok.inj h]
      exact ⟨rl, List.mem_cons_self _ _, emit_rust_library_ok_name he⟩

/-- Build-script patching maps a binary rule to a binary rule with the same
name and dependency set. -/
theorem patch_mem_binary {bt : CTarget} {package : CPackage} {rb : RustBinary}
    {rules : List Rule} (h : Rule.RustBinary rb ∈ rules) :
    ∃ rb' : RustBinary, Rule.RustBinary rb' ∈ rules.map (patchRule bt package)
      ∧ rb'.name = rb.name ∧ rb'.deps = rb.deps := by
  exact ⟨_, List.mem_map_of_mem (patchRule bt package) h, rfl, rfl⟩

/-- Build-script patching maps a library rule to a library rule with the
same name and dependency set. -/
theorem patch_mem_library {bt : CTarget} {package : CPackage} {rl : RustLibrary}
    {rules : List Rule} (h : Rule.RustLibrary rl ∈ rules) :
    ∃ rl' : RustLibrary, Rule.RustLibrary rl' ∈ rules.map (patchRule bt package)
      ∧ rl'.name = rl.name ∧ rl'.deps = rl.deps := by
  exact ⟨_, List.mem_map_of_mem (patchRule bt package) h, rfl, rfl⟩

/-- The naming and implicit-dependency properties of `buckify_root_node`,
stated against any rule list into which the binary- and library-loop outputs
embed name- and deps-preservingly. -/
theorem buckify_core_props {π : Type} {ctx : Ctx π} {node : CNode π} {package : CPackage}
    {binRules : List Rule} {libRules : List (List Rule)} {rules : List Rule}
    (hbm : List.mapM (root_bin_rule ctx package node package.manifest_path.dropLast
      (get_lib_targets package))
      (package.targets.filter (fun t => t.kind.contains TargetKind.Bin)) = .ok binRules)
    (hlm : List.mapM (root_lib_rules ctx package node package.manifest_path.dropLast
      (package.targets.filter (fun t => t.kind.contains TargetKind.Bin)))
      (get_lib_targets package) = .ok libRules)
    (htrans_bin : ∀ rb : RustBinary, Rule.RustBinary rb ∈ binRules →
      ∃ rb' : RustBinary, Rule.RustBinary rb' ∈ rules ∧ rb'.name = rb.name
        ∧ rb'.deps = rb.deps)
    (htrans_lib : ∀ rl : RustLibrary, Rule.RustLibrary rl ∈ libRules.flatten →
      ∃ rl' : RustLibrary, Rule.RustLibrary rl' ∈ rules ∧ rl'.name = rl.name) :
    (∀ b ∈ package.targets.filter (fun t => t.kind.contains TargetKind.Bin),
      ∀ l ∈ get_lib_targets package, l.name = b.name →
      (∃ rl : RustLibrary, Rule.RustLibrary rl ∈ rules ∧ rl.name = "lib".data ++ l.name)
      ∧ (∃ rb : RustBinary, Rule.RustBinary rb ∈ rules ∧ rb.name = b.name
          ∧ (':' :: "lib".data ++ b.name) ∈ rb.deps))
    ∧ (∀ l ∈ get_lib_targets package,
      (∀ b ∈ package.targets.filter (fun t => t.kind.contains TargetKind.Bin),
        b.name ≠ l.name) →
      ∃ rl : RustLibrary, Rule.RustLibrary rl ∈ rules ∧ rl.name = l.name) := by
  constructor
  · intro b hb l hl hname
    rcases exceptMapM_ok_mem hbm b hb with ⟨r, hrmem, hr⟩
    rcases root_bin_rule_ok hr with ⟨rb, rfl, hrbname, hrbdeps⟩
    constructor
    · rcases exceptMapM_ok_mem hlm l hl with ⟨rs, hrsmem, hrs⟩
      rcases root_lib_rules_ok hrs with ⟨rl, hrlin, hrlname⟩
      have hanyb : (package.targets.filter
          (fun t => t.kind.contains TargetKind.Bin)).any
          (fun b' => b'.name == l.name) = true :=
        List.any_eq_true.mpr ⟨b, hb, beq_iff_eq.mpr hname.symm⟩
      rw [if_pos hanyb] at hrlname
      rcases htrans_lib rl (List.mem_flatten.mpr ⟨rs, hrsmem, hrlin⟩) with ⟨rl', hm', hn'⟩
      exact ⟨rl', hm', by rw [hn', hrlname]⟩
    · have hany : (get_lib_targets package).any (fun l' => l'.name == b.name) = true :=
        List.any_eq_true.mpr ⟨l, hl, beq_iff_eq.mpr hname⟩
      rcases htrans_bin rb hrmem with ⟨rb', hm', hn', hd'⟩
      refine ⟨rb', hm', by rw [hn', hrbname], ?_⟩
      rw [hd']
      exact hrbdeps hany
  · intro l hl hno
    rcases exceptMapM_ok_mem hlm l hl with ⟨rs, hrsmem, hrs⟩
    rcases root_lib_rules_ok hrs with ⟨rl, hrlin, hrlname⟩
    have hanyb : (package.targets.filter
        (fun t => t.kind.contains TargetKind.Bin)).any
        (fun b' => b'.name == l.name) = false := by
      rw [List.any_eq_false]
      intro b hb
      simp only [beq_iff_eq]
      exact hno b hb
    rw [if_neg (by rw [hanyb]; exact Bool.false_ne_true)] at hrlname
    rcases htrans_lib rl (List.mem_flatten.mpr ⟨rs, hrsmem, hrlin⟩) with ⟨rl', hm', hn'⟩
    exact ⟨rl', hm', by rw [hn', hrlname]⟩

/-- C8: disambiguation on library/binary name collision.  Whenever
`buckify_root_node` succeeds on the workspace-root package, a binary target
and a library target sharing a name `n` produce a library rule named
`lib{n}` and a binary rule named `n` whose dependency set contains
`:lib{n}`; a library target whose name no binary target shares keeps its
own name. -/
theorem lib_bin_disambiguation {π : Type} (ctx : Ctx π) (node : CNode π)
    (package : CPackage) (rules : List Rule)
    (hpkg : alookup ctx.packages_map node.id = some package)
    (hok : buckify_root_node ctx node = .ok rules) :
    (∀ b ∈ package.targets.filter (fun t => t.kind.contains TargetKind.Bin),
      ∀ l ∈ get_lib_targets package, l.name = b.name →
      (∃ rl : RustLibrary, Rule.RustLibrary rl ∈ rules ∧ rl.name = "lib".data ++ l.name)
      ∧ (∃ rb : RustBinary, Rule.RustBinary rb ∈ rules ∧ rb.name = b.name
          ∧ (':' :: "lib".data ++ b.name) ∈ rb.deps))
    ∧ (∀ l ∈ get_lib_targets package,
      (∀ b ∈ package.targets.filter (fun t => t.kind.contains TargetKind.Bin),
        b.name ≠ l.name) →
      ∃ rl : RustLibrary, Rule.RustLibrary rl ∈ rules ∧ rl.name = l.name) := by
  unfold buckify_root_node at hok
  rw [hpkg] at hok
  dsimp only at hok
  split at hok
  · exact Except.noConfusion hok
  rename_i binRules hbm
  split at hok
  · exact Except.noConfusion hok
  rename_i libRules hlm
  split at hok
  · exact Except.noConfusion hok
  rename_i testRules htm
  split at hok
  · -- no build-script target
    refine buckify_core_props hbm hlm ?_ ?_
    · intro rb hm
      refine ⟨rb, ?_, rfl, rfl⟩
      exact (Except.ok.inj hok) ▸ (List.mem_cons_of_mem _ (List.mem_cons_of_mem _
        (List.mem_append_left _ (List.mem_append_left _ hm))))
    · intro rl hm
      refine ⟨rl, ?_, rfl⟩
      exact (Except.ok.inj hok) ▸ (List.mem_cons_of_mem _ (List.mem_cons_of_mem _
        (List.mem_append_left _ (List.mem_append_right _ hm))))
  · -- with a build-script target: rules are patched and extended
    rename_i build_target hcb
    split at hok
    · exact Except.noConfusion hok
    rename_i bb hbb
    split at hok
    · exact Except.noConfusion hok
    rename_i br hbr
    refine buckify_core_props hbm hlm ?_ ?_
    · intro rb hm
      have h0 : Rule.RustBinary rb ∈
          Rule.FileGroup (emit_filegroup package)
            :: Rule.CargoManifest (emit_cargo_manifest package)
            :: (binRules ++ libRules.flatten ++ testRules) :=
        List.mem_cons_of_mem _ (List.mem_cons_of_mem _
          (List.mem_append_left _ (List.mem_append_left _ hm)))
      rcases @patch_mem_binary build_target package _ _ h0
        with ⟨rb', hmap, hn, hd⟩
      exact ⟨rb', (Except.ok.inj hok) ▸ List.mem_append_left _ hmap, hn, hd⟩
    · intro rl hm
      have h0 : Rule.RustLibrary rl ∈
          Rule.FileGroup (emit_filegroup package)
            :: Rule.CargoManifest (emit_cargo_manifest package)
            :: (binRules ++ libRules.flatten ++ testRules) :=
        List.mem_cons_of_mem _ (List.mem_cons_of_mem _
          (List.mem_append_left _ (List.mem_append_right _ hm)))
      rcases @patch_mem_library build_target package _ _ h0
        with ⟨rl', hmap, hn, hd⟩
      exact ⟨rl', (Except.ok.inj hok) ▸ List.mem_append_left _ hmap, hn⟩

/-- C8 witness: for the workspace-root package with binary `foo`, library
`foo` and library `bar`, translation emits a library rule `libfoo`, a binary
rule `foo` depending on `:libfoo`, and a library rule that keeps the name
`bar`. -/
theorem lib_bin_disambiguation_witness :
    ∃ rules, buckify_root_node c8Ctx c8Node = .ok rules
      ∧ (∃ rl : RustLibrary, Rule.RustLibrary rl ∈ rules ∧ rl.name = "libfoo".data)
      ∧ (∃ rb : RustBinary, Rule.RustBinary rb ∈ rules ∧ rb.name = "foo".data
          ∧ ":libfoo".data ∈ rb.deps)
      ∧ (∃ rl : RustLibrary, Rule.RustLibrary rl ∈ rules ∧ rl.name = "bar".data) := by
  cases hok : buckify_root_node c8Ctx c8Node with
  | error e => exact Except.noConfusion hok
  | ok rules =>
    have h := lib_bin_disambiguation c8Ctx c8Node c8Pkg rules rfl hok
    have h1 := h.1 binFoo (by decide) libFoo (by decide) rfl
    have h2 := h.2 libBar (by decide) (by decide)
    refine ⟨rules, rfl, ?_, ?_, ?_⟩
    · rcases h1.1 with ⟨rl, hm, hn⟩
      refine ⟨rl, hm, ?_⟩
      rw [hn]
      decide
    · rcases h1.2 with ⟨rb, hm, hn, hd⟩
      refine ⟨rb, hm, by rw [hn]; decide, ?_⟩
      have heq : (':' :: "lib".data ++ binFoo.name) = ":libfoo".data := by decide
      rw [← heq]
      exact hd
    · rcases h2 with ⟨rl, hm, hn⟩
      refine ⟨rl, hm, ?_⟩
      rw [hn]
      decide

/-- Decomposition of a successful first-occurrence split. -/
theorem splitFirstOn_eq_some {pat : Str} :
    ∀ {s a b : Str}, splitFirstOn pat s = some (a, b) → s = a ++ pat ++ b := by
  intro s
  induction s with
  | nil =>
    intro a b h
    unfold splitFirstOn at h
    split at h
    · rename_i hp
      have hab := Option.some.inj h
      rw [hp, ← (Prod.mk.injEq _ _ _ _).mp hab |>.1, ← (Prod.mk.injEq _ _ _ _).mp hab |>.2]
      rfl
    · exact Option.noConfusion h
  | cons c rest ih =>
    intro a b h
    unfold splitFirstOn at h
    split at h
    · rename_i hpre
      have hab := Option.some.inj h
      have ha : ([] : Str) = a := ((Prod.mk.injEq _ _ _ _).mp hab).1
      have hb : (c :: rest).drop pat.length = b := ((Prod.mk.injEq _ _ _ _).mp hab).2
      rw [← ha, ← hb, List.nil_append]
      have htake : pat = (c :: rest).take pat.length := by
        have := List.isPrefixOf_iff_prefix.mp hpre
        exact List.prefix_iff_eq_take.mp this
      conv_lhs => rw [← List.take_append_drop pat.length (c :: rest)]
      rw [← htake]
    · cases hsp : splitFirstOn pat rest with
      | none =>
        rw [hsp] at h
        exact Option.noConfusion h
      | some p =>
        rw [hsp] at h
        dsimp only [Option.map] at h
        have hab := Option.some.inj h
        have ha : c :: p.1 = a := ((Prod.mk.injEq _ _ _ _).mp hab).1
        have hb : p.2 = b := ((Prod.mk.injEq _ _ _ _).mp hab).2
        have hrest : rest = p.1 ++ pat ++ p.2 := ih hsp
        rw [← ha, ← hb, List.cons_append, List.cons_append, ← hrest]

/-- The recursion step of the split: a head character that does not start
the pattern is carried into the prefix part. -/
theorem splitFirstOn_cons_ne {p0 : Char} {pt : Str} {c : Char} {s : Str} (h : c ≠ p0) :
    splitFirstOn (p0 :: pt) (c :: s)
      = (splitFirstOn (p0 :: pt) s).map (fun p => (c :: p.1, p.2)) := by
  have hpre : (p0 :: pt).isPrefixOf (c :: s) = false := by
    show (p0 == c && pt.isPrefixOf s) = false
    have : (p0 == c) = false := beq_eq_false_iff_ne.mpr (fun he => h he.symm)
    rw [this, Bool.false_and]
  conv_lhs => rw [splitFirstOn]
  rw [if_neg (by rw [hpre]; exact Bool.false_ne_true)]

/-- Splitting at an explicitly placed first occurrence. -/
theorem splitFirstOn_append {p0 : Char} {pt b : Str} :
    ∀ {a : Str}, p0 ∉ a → splitFirstOn (p0 :: pt) (a ++ (p0 :: pt) ++ b) = some (a, b) := by
  intro a
  induction a with
  | nil =>
    intro _
    rw [List.nil_append]
    have hpre : (p0 :: pt).isPrefixOf ((p0 :: pt) ++ b) = true :=
      List.isPrefixOf_iff_prefix.mpr (List.prefix_append _ _)
    rw [List.cons_append]
    unfold splitFirstOn
    rw [if_pos (by rw [← List.cons_append]; exact hpre)]
    rw [← List.cons_append, List.drop_left]
  | cons x xs ih =>
    intro hmem
    have hx : x ≠ p0 := fun he => hmem (he ▸ List.mem_cons_self x xs)
    rw [List.cons_append, List.cons_append, splitFirstOn_cons_ne hx,
      ih (fun hm => hmem (List.mem_cons_of_mem x hm))]
    rfl

/-- The prefix part of a single-character split does not contain the
character. -/
theorem splitFirstOn_single_not_mem {c0 : Char} :
    ∀ {s a b : Str}, splitFirstOn [c0] s = some (a, b) → c0 ∉ a := by
  intro s
  induction s with
  | nil =>
    intro a b h
    unfold splitFirstOn at h
    split at h
    · rename_i hp
      exact absurd hp (List.cons_ne_nil c0 [])
    · exact Option.noConfusion h
  | cons c rest ih =>
    intro a b h
    unfold splitFirstOn at h
    split at h
    · have ha : ([] : Str) = a := ((Prod.mk.injEq _ _ _ _).mp (Option.some.inj h)).1
      rw [← ha]
      exact List.not_mem_nil c0
    · rename_i hpre
      cases hsp : splitFirstOn [c0] rest with
      | none =>
        rw [hsp] at h
        exact Option.noConfusion h
      | some p =>
        rw [hsp] at h
        dsimp only [Option.map] at h
        have ha : c :: p.1 = a := ((Prod.mk.injEq _ _ _ _).mp (Option.some.inj h)).1
        have hc : c ≠ c0 := by
          intro he
          apply hpre
          show ((c0 == c) && List.isPrefixOf [] rest) = true
          rw [he, beq_self_eq_true]
          cases rest <;> rfl
        rw [← ha]
        intro hm
        rcases List.mem_cons.mp hm with he | hm2
        · exact hc he.symm
        · exact ih hsp hm2

/-- A successful association-list lookup means the binding is present. -/
theorem alookup_mem {α : Type} :
    ∀ {l : List (Str × α)} {k : Str} {v : α}, alookup l k = some v → (k, v) ∈ l := by
  intro l
  induction l with
  | nil =>
    intro k v h
    exact Option.noConfusion h
  | cons kv rest ih =>
    intro k v h
    rcases kv with ⟨k', v'⟩
    unfold alookup at h
    split at h
    · rename_i heq
      rw [← heq, ← Option.some.inj h]
      exact List.mem_cons_self _ _
    · exact List.mem_cons_of_mem _ (ih h)

/-- A lookup of a key bound by no entry fails. -/
theorem alookup_eq_none {α : Type} :
    ∀ {l : List (Str × α)} {k : Str}, (∀ kv ∈ l, kv.1 ≠ k) → alookup l k = none := by
  intro l
  induction l with
  | nil => intro k _; rfl
  | cons kv rest ih =>
    intro k h
    unfold alookup
    rcases kv with ⟨k', v'⟩
    rw [if_neg (h (k', v') (List.mem_cons_self _ _))]
    exact ih (fun kv2 hm => h kv2 (List.mem_cons_of_mem _ hm))

/-- A string starts with `'@'` exactly when it is `'@'` followed by a tail. -/
theorem startsWithAt_true {t : Str} (h : startsWithAt t = true) : ∃ s, t = '@' :: s := by
  cases t with
  | nil => exact absurd h (by decide)
  | cons c s =>
    have : c = '@' := beq_iff_eq.mp h
    exact ⟨s, by rw [this]⟩

/-- Adding the `'@'` mark off-root always yields an `'@'`-headed string. -/
theorem addAtMark_false_starts (r : Str) : startsWithAt (addAtMark false r) = true := by
  unfold addAtMark
  by_cases h : startsWithAt r = true
  · rw [if_neg (by rw [h]; decide)]
    exact h
  · rw [Bool.not_eq_true] at h
    rw [if_pos (by rw [h]; rfl)]
    rfl

/-- The final fall-through returns the target or the `'@'`-marked target. -/
theorem finalFallback_cases (ir : Bool) (t : Str) :
    finalFallback ir t = t ∨ finalFallback ir t = '@' :: t := by
  unfold finalFallback
  split
  · right; rfl
  · left; rfl

/-- The final fall-through keeps an `'@'`-headed target unchanged. -/
theorem finalFallback_at (ir : Bool) {t : Str} (h : startsWithAt t = true) :
    finalFallback ir t = t := by
  unfold finalFallback
  rw [h]
  simp

/-- The final fall-through output is the target or is `'@'`-headed. -/
theorem finalFallback_shape (ir : Bool) (t : Str) :
    finalFallback ir t = t ∨ startsWithAt (finalFallback ir t) = true := by
  rcases finalFallback_cases ir t with h | h
  · left; exact h
  · right; rw [h]; rfl

/-- An `'@'`-headed label is a fixed point of the rewriter whenever no cell
name and no alias key begins with `'@'`: every lookup misses, so the label
falls through, and the fall-through keeps `'@'`-headed labels unchanged. -/
theorem rewrite_at_fixed (cell_aliases : List (Str × Str)) (buck2_root : List Str)
    (cells cellMappings : List (Str × Str)) (current_file_path : List Str) (s : Str)
    (hcells : ∀ kv ∈ cells, startsWithAt kv.1 = false)
    (halias : ∀ kv ∈ cell_aliases, startsWithAt kv.1 = false) :
    rewrite_target_with_cell ('@' :: s) cell_aliases buck2_root cells cellMappings
      current_file_path = '@' :: s := by
  unfold rewrite_target_with_cell
  rw [if_neg (List.cons_ne_nil '@' s)]
  dsimp only
  cases hsp : splitFirstOn sepSS ('@' :: s) with
  | none => exact finalFallback_at _ rfl
  | some p =>
    rcases p with ⟨before, after⟩
    have hdecomp := splitFirstOn_eq_some hsp
    cases hb : before with
    | nil =>
      exfalso
      rw [hb] at hdecomp
      simp [sepSS] at hdecomp
    | cons c b' =>
      have hc : c = '@' := by
        rw [hb] at hdecomp
        rw [List.cons_append, List.cons_append] at hdecomp
        exact (List.cons.injEq _ _ _ _).mp hdecomp |>.1.symm
      subst hb
      subst hc
      dsimp only
      rw [if_neg (List.cons_ne_nil '@' b')]
      have hstart : ∀ k : Str, startsWithAt k = false → k ≠ '@' :: b' := by
        intro k hk he
        rw [he] at hk
        have htrue : startsWithAt ('@' :: b') = true := rfl
        rw [htrue] at hk
        exact Bool.noConfusion hk
      have halk : alookup cell_aliases ('@' :: b') = none :=
        alookup_eq_none (fun kv hm => hstart kv.1 (halias kv hm))
      have hclk : alookup cells ('@' :: b') = none :=
        alookup_eq_none (fun kv hm => hstart kv.1 (hcells kv hm))
      rw [halk]
      dsimp only [Option.getD]
      rw [hclk]
      dsimp only
      exact finalFallback_at _ rfl

/-- Off-root, the rewriter's output is the target itself or `'@'`-headed. -/
theorem rewrite_not_in_root_shape (target : Str) (cell_aliases : List (Str × Str))
    (buck2_root : List Str) (cells cellMappings : List (Str × Str))
    (current_file_path : List Str)
    (hir : isInRoot buck2_root current_file_path = false) :
    rewrite_target_with_cell target cell_aliases buck2_root cells cellMappings
      current_file_path = target
    ∨ startsWithAt (rewrite_target_with_cell target cell_aliases buck2_root cells
      cellMappings current_file_path) = true := by
  unfold rewrite_target_with_cell
  rw [hir]
  by_cases ht : target = []
  · rw [if_pos ht]; left; rfl
  rw [if_neg ht]
  dsimp only
  repeat' split
  all_goals first
    | exact finalFallback_shape false target
    | exact Or.inr (addAtMark_false_starts _)

/-- C1 amended: off-root idempotence of the label rewriter.  When the
declaring file is not at the project root and no configured cell name or
alias key begins with `'@'`, applying `rewrite_target_with_cell` to its own
output returns that output unchanged.  (At the project root idempotence
fails; see the counterexample.) -/
theorem rewrite_idempotent_off_root (target : Str) (cell_aliases : List (Str × Str))
    (buck2_root : List Str) (cells cellMappings : List (Str × Str))
    (current_file_path : List Str)
    (hir : isInRoot buck2_root current_file_path = false)
    (hcells : ∀ kv ∈ cells, startsWithAt kv.1 = false)
    (halias : ∀ kv ∈ cell_aliases, startsWithAt kv.1 = false) :
    rewrite_target_with_cell (rewrite_target_with_cell target cell_aliases buck2_root
      cells cellMappings current_file_path) cell_aliases buck2_root cells cellMappings
      current_file_path
    = rewrite_target_with_cell target cell_aliases buck2_root cells cellMappings
      current_file_path := by
  rcases rewrite_not_in_root_shape target cell_aliases buck2_root cells cellMappings
      current_file_path hir with h | h
  · rw [h]
    exact h
  · rcases startsWithAt_true h with ⟨s, hs⟩
    rw [hs]
    exact rewrite_at_fixed cell_aliases buck2_root cells cellMappings current_file_path
      s hcells halias

/-- C1 amended witness: in the example-2 configuration with the declaring
file below the project root, rewriting the bare label twice equals rewriting
it once. -/
theorem rewrite_idempotent_off_root_witness :
    rewrite_target_with_cell (rewrite_target_with_cell
        "//third-party/rust/crates/foo/1.0:foo".data c4Aliases exRoot1 c4Cells
        c4MapsCanonFirst c4File) c4Aliases exRoot1 c4Cells c4MapsCanonFirst c4File
    = rewrite_target_with_cell "//third-party/rust/crates/foo/1.0:foo".data c4Aliases
        exRoot1 c4Cells c4MapsCanonFirst c4File := by
  exact rewrite_idempotent_off_root "//third-party/rust/crates/foo/1.0:foo".data
    c4Aliases exRoot1 c4Cells c4MapsCanonFirst c4File (by decide) (by decide) (by decide)

/-- A clean name contains no slash. -/
theorem cleanName_slash {s : Str} (h : cleanName s) : '/' ∉ s :=
  fun hm => (h '/' hm).1 rfl

/-- Prepending a non-slash character does not change the rule-name
component. -/
theorem nameAfterSep_cons {c : Char} {t : Str} (hc : c ≠ '/') :
    nameAfterSep (c :: t) = nameAfterSep t := by
  unfold nameAfterSep
  have h1 : splitFirstOn sepSS (c :: t)
      = (splitFirstOn sepSS t).map (fun p => (c :: p.1, p.2)) :=
    splitFirstOn_cons_ne hc
  rw [h1]
  cases hsp : splitFirstOn sepSS t with
  | none => rfl
  | some p => rfl

/-- The `'@'` marking does not change the rule-name component. -/
theorem nameAfterSep_addAt (ir : Bool) (r : Str) :
    nameAfterSep (addAtMark ir r) = nameAfterSep r := by
  unfold addAtMark
  split
  · exact nameAfterSep_cons (by decide)
  · rfl

/-- The final fall-through does not change the rule-name component. -/
theorem nameAfterSep_finalFallback (ir : Bool) (t : Str) :
    nameAfterSep (finalFallback ir t) = nameAfterSep t := by
  rcases finalFallback_cases ir t with h | h
  · rw [h]
  · rw [h]
    exact nameAfterSep_cons (by decide)

/-- The rule-name component of a rebuilt label `C ++ "//" ++ A` is the
rule-name component of `A`, provided the prefix `C` is slash-free. -/
theorem nameAfterSep_build {C A pp nm : Str} (hC : '/' ∉ C)
    (hA : splitFirstOn colonP A = some (pp, nm)) :
    nameAfterSep (C ++ sepSS ++ A) = some nm := by
  unfold nameAfterSep
  have h1 : splitFirstOn sepSS (C ++ sepSS ++ A) = some (C, A) := splitFirstOn_append hC
  rw [h1]
  dsimp only
  rw [hA]
  rfl

/-- Cell-path stripping introduces no new characters. -/
theorem not_mem_stripCellPathPart {c : Char} {cp pp : Str} (h : c ∉ pp) :
    c ∉ stripCellPathPart cp pp := by
  unfold stripCellPathPart
  split
  · dsimp only
    split
    · rename_i r heq
      intro hm
      apply h
      exact List.mem_of_mem_drop (by rw [heq]; exact List.mem_cons_of_mem _ hm)
    · intro hm
      exact h (List.mem_of_mem_drop hm)
  · exact h

/-- The rebuilt after-separator part splits at its colon into the new path
part and the retained rule name. -/
theorem splitFirstOn_newAfterSep {np nm : Str} (h : ':' ∉ np) :
    splitFirstOn colonP (newAfterSep np nm) = some (np, nm) := by
  unfold newAfterSep
  split
  · rename_i hnp
    rw [hnp]
    exact splitFirstOn_append (List.not_mem_nil ':')
  · rw [show np ++ ':' :: nm = np ++ [':'] ++ nm from (List.append_assoc np [':'] nm).symm]
    exact splitFirstOn_append h

/-- The best-match fold only returns names drawn from the mapping (or the
initial accumulator). -/
theorem foldl_bestStep_names {rel : List Str} :
    ∀ (l : List (Str × Str)) (acc : Option (Str × Nat)) (res : Str × Nat),
    l.foldl (bestStep rel) acc = some res →
    acc = some res ∨ ∃ q, (res.1, q) ∈ l := by
  intro l
  induction l with
  | nil =>
    intro acc res h
    exact Or.inl h
  | cons x xs ih =>
    intro acc res h
    rw [List.foldl_cons] at h
    rcases ih (bestStep rel acc x) res h with hacc | ⟨q, hq⟩
    · unfold bestStep at hacc
      dsimp only at hacc
      by_cases hp : (pathComponents x.2).isPrefixOf rel = true
      · rw [if_pos hp] at hacc
        cases acc with
        | none =>
          dsimp only at hacc
          right
          refine ⟨x.2, ?_⟩
          rw [← Option.some.inj hacc]
          exact List.mem_cons_self x xs
        | some best =>
          dsimp only at hacc
          split at hacc
          · right
            refine ⟨x.2, ?_⟩
            rw [← Option.some.inj hacc]
            exact List.mem_cons_self x xs
          · left
            exact hacc
      · rw [if_neg hp] at hacc
        left
        exact hacc
    · right
      exact ⟨q, List.mem_cons_of_mem _ hq⟩

/-- A resolved cell name is one of the mapping's names. -/
theorem find_cell_for_path_mem {mappings : List (Str × Str)} {path buck2_root : List Str}
    {c : Str} (h : find_cell_for_path mappings path buck2_root = some c) :
    ∃ q, (c, q) ∈ mappings := by
  unfold find_cell_for_path at h
  cases hs : stripPrefixPath buck2_root path with
  | none =>
    rw [hs] at h
    exact Option.noConfusion h
  | some rel =>
    rw [hs] at h
    dsimp only at h
    cases hf : mappings.foldl (bestStep rel) none with
    | none =>
      rw [hf] at h
      exact Option.noConfusion h
    | some res =>
      rw [hf] at h
      have hc : res.1 = c := Option.some.inj h
      rcases foldl_bestStep_names mappings none res hf with h0 | ⟨q, hq⟩
      · exact Option.noConfusion h0
      · exact ⟨q, hc ▸ hq⟩

/-- C10: label rewriting never alters the rule-name component.  An input
without the `"//"` separator is returned unchanged; for an input with a
colon after its first `"//"`, the substring after that colon (the rule
name, `nameAfterSep`) is the same in the rewriter's output — only the cell
prefix, the `'@'` marker and the path part may change.  The configured cell
names (mapping keys, `cells` keys) and alias values are assumed free of the
`'/'` and `':'` metacharacters, as names read from `.buckconfig` are. -/
theorem rewrite_preserves_name (target : Str) (cell_aliases : List (Str × Str))
    (buck2_root : List Str) (cells cellMappings : List (Str × Str))
    (current_file_path : List Str)
    (hmap : ∀ kv ∈ cellMappings, cleanName kv.1)
    (hcellkeys : ∀ kv ∈ cells, cleanName kv.1)
    (haliasvals : ∀ kv ∈ cell_aliases, cleanName kv.2) :
    (splitFirstOn sepSS target = none →
      rewrite_target_with_cell target cell_aliases buck2_root cells cellMappings
        current_file_path = target)
    ∧ (∀ nm, nameAfterSep target = some nm →
      nameAfterSep (rewrite_target_with_cell target cell_aliases buck2_root cells
        cellMappings current_file_path) = some nm) := by
  constructor
  · intro hnone
    unfold rewrite_target_with_cell
    by_cases ht : target = []
    · rw [if_pos ht]
    · rw [if_neg ht]
      dsimp only
      rw [hnone]
      unfold finalFallback
      rw [hnone]
      simp
  · intro nm hnm
    unfold nameAfterSep at hnm
    cases hsp : splitFirstOn sepSS target with
    | none =>
      rw [hsp] at hnm
      exact Option.noConfusion hnm
    | some p =>
      rcases p with ⟨before, after⟩
      rw [hsp] at hnm
      dsimp only at hnm
      cases hcol : splitFirstOn colonP after with
      | none =>
        rw [hcol] at hnm
        exact Option.noConfusion hnm
      | some q =>
        rcases q with ⟨path_part, name_part⟩
        rw [hcol] at hnm
        have hnmeq : name_part = nm := Option.some.inj hnm
        subst hnmeq
        have hppc : ':' ∉ path_part := splitFirstOn_single_not_mem hcol
        have hnat : nameAfterSep target = some name_part := by
          unfold nameAfterSep
          rw [hsp]
          dsimp only
          rw [hcol]
          rfl
        have htne : target ≠ [] := by
          intro he
          rw [he] at hsp
          rw [show splitFirstOn sepSS ([] : Str) = none from rfl] at hsp
          exact Option.noConfusion hsp
        unfold rewrite_target_with_cell
        rw [if_neg htne]
        dsimp only
        rw [hsp]
        dsimp only
        by_cases hb : before = []
        · rw [if_pos hb]
          rw [hcol]
          dsimp only
          cases hfc : find_cell_for_path cellMappings (buck2_root ++ joinSegs path_part)
              buck2_root with
          | none =>
            dsimp only
            rw [nameAfterSep_finalFallback]
            exact hnat
          | some cell_name =>
            have hclean : cleanName cell_name := by
              rcases find_cell_for_path_mem hfc with ⟨qq, hq⟩
              exact hmap (cell_name, qq) hq
            dsimp only
            cases hck : alookup cells cell_name with
            | some cell_path =>
              dsimp only
              rw [nameAfterSep_addAt]
              exact nameAfterSep_build (cleanName_slash hclean)
                (splitFirstOn_newAfterSep (not_mem_stripCellPathPart hppc))
            | none =>
              dsimp only
              rw [nameAfterSep_addAt]
              exact nameAfterSep_build (cleanName_slash hclean) hcol
        · rw [if_neg hb]
          cases hal : alookup cell_aliases before with
          | some v =>
            have hcleanv : cleanName v := haliasvals (before, v) (alookup_mem hal)
            dsimp only [Option.getD]
            cases hck : alookup cells v with
            | some cell_path =>
              dsimp only
              rw [hcol]
              dsimp only
              split
              · rw [nameAfterSep_addAt]
                exact nameAfterSep_build (cleanName_slash hcleanv)
                  (splitFirstOn_newAfterSep (not_mem_stripCellPathPart hppc))
              · rw [nameAfterSep_finalFallback]
                exact hnat
            | none =>
              dsimp only
              split
              · rw [nameAfterSep_addAt]
                exact nameAfterSep_build (cleanName_slash hcleanv) hcol
              · rw [nameAfterSep_finalFallback]
                exact hnat
          | none =>
            dsimp only [Option.getD]
            cases hck : alookup cells before with
            | some cell_path =>
              have hcleanb : cleanName before :=
                hcellkeys (before, cell_path) (alookup_mem hck)
              dsimp only
              rw [hcol]
              dsimp only
              split
              · rw [nameAfterSep_addAt]
                exact nameAfterSep_build (cleanName_slash hcleanb)
                  (splitFirstOn_newAfterSep (not_mem_stripCellPathPart hppc))
              · rw [nameAfterSep_finalFallback]
                exact hnat
            | none =>
              dsimp only
              rw [nameAfterSep_finalFallback]
              exact hnat

/-- C10 witness: in the example-2 configuration the label
`//third-party/rust/crates/foo/1.0:foo` keeps its rule name `foo` across
rewriting, and a label without `"//"` is returned unchanged. -/
theorem rewrite_preserves_name_witness :
    rewrite_target_with_cell "foo:bar".data c4Aliases exRoot1 c4Cells c4MapsCanonFirst
      c4File = "foo:bar".data
    ∧ nameAfterSep (rewrite_target_with_cell
        "//third-party/rust/crates/foo/1.0:foo".data c4Aliases exRoot1 c4Cells
        c4MapsCanonFirst c4File) = some "foo".data := by
  constructor
  · exact (rewrite_preserves_name "foo:bar".data c4Aliases exRoot1 c4Cells
      c4MapsCanonFirst c4File (by decide) (by decide) (by decide)).1 (by decide)
  · exact (rewrite_preserves_name "//third-party/rust/crates/foo/1.0:foo".data c4Aliases
      exRoot1 c4Cells c4MapsCanonFirst c4File (by decide) (by decide) (by decide)).2
      "foo".data (by decide)

end Buckal
